import Mathlib

/-!
Verification of the generation-orchestration core of `andys-daily-factoids`.

Shallow embedding of the Python sources:
  * `backend/apps/core/services/rate_limits.py`   (sliding-window rate limiters)
  * `backend/apps/core/services/cost_guard.py`    (per-profile budget guard)
  * `backend/apps/factoids/services/openrouter.py` (structured-output extraction)
  * `backend/apps/factoids/services/generator.py`  (generation orchestrator, model resolution)
  * `backend/apps/chat/services/factoid_agent.py`  (chat agent, retry/fallback, loop ceiling)

Python floats/timestamps are modelled as rationals (the code performs only
comparisons, additions and subtractions on them, so the embedding is exact on
the rational subset); Python ints used as counts are modelled as naturals.
-/

namespace Factoids

/-! ## Rate limiting (`rate_limits.py`)

`RateLimitConfig` holds `window_seconds` and `limit` (ints in the source;
`window_seconds` is only ever added to / subtracted from float timestamps, so
it is modelled as a rational, and `limit` is a count, modelled as a natural). -/

structure RateLimitConfig where
  window_seconds : ℚ
  limit : ℕ
deriving DecidableEq, Repr

/-- Outcome of a `check` call.  The source raises `RateLimitExceeded(retry_after)`
on violation; `indexError` models the `IndexError` that `entries[0]` would raise
when the deque is empty yet `len(entries) >= config.limit` holds (only possible
for `limit = 0`). -/
inductive RLResult where
  | allowed
  | exceeded (retry_after : ℚ)
  | indexError
deriving DecidableEq, Repr

/-- `InMemoryRateLimiter.check`, for a single bucket.  The per-bucket deque of
float timestamps is a `List ℚ` (front = oldest).  The source:

    window_start = now - config.window_seconds
    while entries and entries[0] < window_start: entries.popleft()
    if len(entries) >= config.limit:
        retry_after = max(entries[0] + config.window_seconds - now, 0.0)
        raise RateLimitExceeded(retry_after)
    entries.append(now)

Returns the outcome together with the bucket's deque after the call. -/
def InMemoryRateLimiter.check (cfg : RateLimitConfig) (now : ℚ) (entries : List ℚ) :
    RLResult × List ℚ :=
  let window_start := now - cfg.window_seconds
  let pruned := entries.dropWhile (fun t => decide (t < window_start))
  if cfg.limit ≤ pruned.length then
    match pruned with
    | [] => (.indexError, pruned)
    | t0 :: _ => (.exceeded (max (t0 + cfg.window_seconds - now) 0), pruned)
  else
    (.allowed, pruned ++ [now])

/-- Iterate `InMemoryRateLimiter.check` over a list of call times, collecting
the outcomes (front = first call) and the final deque. -/
def InMemoryRateLimiter.run (cfg : RateLimitConfig) :
    List ℚ → List ℚ → List RLResult × List ℚ
  | [], entries => ([], entries)
  | t :: ts, entries =>
      let step := InMemoryRateLimiter.check cfg t entries
      let rest := InMemoryRateLimiter.run cfg ts step.2
      (step.1 :: rest.1, rest.2)

/-- `RedisRateLimiter.check`, for a single bucket.  The interaction with the
Redis backend is represented by the data the code reads from it:
`pipeline` is the result of the atomic `zremrangebyscore` + `zcard` pipeline —
`Except.error ()` when the backend raises (connection failure), otherwise
`(removed_count, current_count)`; `oldest` is the score returned by
`zrange(key, 0, 0, withscores=True)` (`none` when the set is empty).  On a
backend error the source logs a warning and raises `RateLimitExceeded(0.0)`. -/
def RedisRateLimiter.check (cfg : RateLimitConfig) (now : ℚ)
    (pipeline : Except Unit (ℕ × ℕ)) (oldest : Option ℚ) : RLResult :=
  match pipeline with
  | .error _ => .exceeded 0
  | .ok (_, current_count) =>
    if cfg.limit ≤ current_count then
      match oldest with
      | some s => .exceeded (max (s + cfg.window_seconds - now) 0)
      | none => .exceeded 0
    else
      .allowed

/-! ## Cost guard (`cost_guard.py`) -/

/-- `CostGuardDecision(allowed, reason, remaining_budget)`. -/
structure CostGuardDecision where
  allowed : Bool
  reason : String
  remaining_budget : Option ℚ
deriving DecidableEq, Repr

/-- `CostGuard`: `profile_budgets` and `profile_usage` are Python dicts keyed by
profile name; modelled as association lists with unique-key dict lookup
(first match — the embedding never constructs duplicate keys). -/
structure CostGuard where
  profile_budgets : List (String × ℚ)
  profile_usage : List (String × ℚ)
deriving DecidableEq, Repr

/-- Python `dict.get(key)` on an association list. -/
def dictGet (l : List (String × ℚ)) (k : String) : Option ℚ :=
  (l.find? (fun p => p.1 == k)).map (fun p => p.2)

/-- `CostGuard._get_budget`. -/
def CostGuard.getBudget (g : CostGuard) (profile : String) : Option ℚ :=
  dictGet g.profile_budgets profile

/-- `CostGuard.evaluate`:

    budget = self._get_budget(profile)
    used = self.profile_usage.get(profile, 0.0)
    if budget is None: return CostGuardDecision(True, "no-budget", None)
    remaining = budget - used
    if expected_cost > remaining:
        return CostGuardDecision(False, "budget-exceeded", max(remaining, 0.0))
    return CostGuardDecision(True, "allowed", remaining - expected_cost)
-/
def CostGuard.evaluate (g : CostGuard) (profile : String) (expected_cost : ℚ) :
    CostGuardDecision :=
  match g.getBudget profile with
  | none => ⟨true, "no-budget", none⟩
  | some budget =>
    let used := (dictGet g.profile_usage profile).getD 0
    let remaining := budget - used
    if expected_cost > remaining then
      ⟨false, "budget-exceeded", some (max remaining 0)⟩
    else
      ⟨true, "allowed", some (remaining - expected_cost)⟩

/-- Update (or insert) a key in an association-list dict. -/
def dictSet (l : List (String × ℚ)) (k : String) (v : ℚ) : List (String × ℚ) :=
  match l with
  | [] => [(k, v)]
  | p :: rest => if p.1 == k then (k, v) :: rest else p :: dictSet rest k v

/-- `CostGuard.record`: inserts `0.0` for an unknown profile, then adds
`actual_cost` to the profile's usage. -/
def CostGuard.record (g : CostGuard) (profile : String) (actual_cost : ℚ) : CostGuard :=
  let used := (dictGet g.profile_usage profile).getD 0
  { g with profile_usage := dictSet g.profile_usage profile (used + actual_cost) }

/-! ## JSON values and `json.loads` (`openrouter.py` calls the stdlib parser)

The extractor calls `json.loads` in strict mode.  We embed the JSON grammar:
values are null / booleans / numbers / strings / arrays / objects.  Numbers
are modelled exactly as rationals (Python would convert to int/float; no
claim involves numeric payloads).  `NaN`/`Infinity` extensions and lone
surrogate `\u` escapes (representable in Python strings but not as Unicode
scalars) are modelled as parse failures; no claim exercises them. -/

inductive Json where
  | null
  | bool (b : Bool)
  | num (q : ℚ)
  | str (s : String)
  | arr (elems : List Json)
  | obj (members : List (String × Json))

/-- Named characters, to keep delimiter handling explicit. -/
def quoteChar : Char := Char.ofNat 34
def bslashChar : Char := Char.ofNat 92
def backtickChar : Char := Char.ofNat 96
def lbraceChar : Char := Char.ofNat 123
def rbraceChar : Char := Char.ofNat 125
def lbrackChar : Char := Char.ofNat 91
def rbrackChar : Char := Char.ofNat 93
def slashChar : Char := Char.ofNat 47
def minusChar : Char := Char.ofNat 45
def plusChar : Char := Char.ofNat 43
def dotChar : Char := Char.ofNat 46

/-- JSON inter-token whitespace (`json.decoder` skips exactly `' \t\n\r'`). -/
def isJsonWs (c : Char) : Bool :=
  c == ' ' || c == '\t' || c == '\n' || c == '\r'

/-- Whitespace for Python's regex `\s` and `str.strip()` (ASCII portion;
the non-ASCII Unicode whitespace classes are not exercised by any claim). -/
def isPyWs (c : Char) : Bool :=
  c == ' ' || c == '\t' || c == '\n' || c == '\r' ||
    c == Char.ofNat 11 || c == Char.ofNat 12

def hexDigitVal (c : Char) : Option ℕ :=
  let n := c.toNat
  if 48 ≤ n ∧ n ≤ 57 then some (n - 48)
  else if 97 ≤ n ∧ n ≤ 102 then some (n - 87)
  else if 65 ≤ n ∧ n ≤ 70 then some (n - 55)
  else none

def consParse (c : Char) (r : Option (List Char × List Char)) :
    Option (List Char × List Char) :=
  r.map (fun p => (c :: p.1, p.2))

/-- Four hex digits, returning the code unit and the remaining input. -/
def hex4 : List Char → Option (ℕ × List Char)
  | h1 :: h2 :: h3 :: h4 :: rest =>
    match hexDigitVal h1, hexDigitVal h2, hexDigitVal h3, hexDigitVal h4 with
    | some a, some b, some c, some d => some (4096 * a + 256 * b + 16 * c + d, rest)
    | _, _, _, _ => none
  | _ => none

/-- Decode a `\uXXXX` escape (input starts after the `u`); returns the decoded
character and the number of characters consumed.  Surrogate pairs are
combined; a lone surrogate (which Python would keep as an unpaired surrogate
in its `str`) has no Unicode-scalar counterpart here and is modelled as a
failure — no claim exercises one. -/
def decodeUEscape (cs : List Char) : Option (Char × ℕ) :=
  match hex4 cs with
  | none => none
  | some (n, rest3) =>
    if 55296 ≤ n ∧ n ≤ 56319 then
      match rest3 with
      | b1 :: u2 :: rest4 =>
        if b1 == bslashChar && u2 == 'u' then
          match hex4 rest4 with
          | some (m, _) =>
            if 56320 ≤ m ∧ m ≤ 57343 then
              some (Char.ofNat (65536 + (n - 55296) * 1024 + (m - 56320)), 10)
            else none
          | none => none
        else none
      | _ => none
    else if 56320 ≤ n ∧ n ≤ 57343 then none
    else some (Char.ofNat n, 4)

/-- One step of decoding a JSON string-literal body: `none` on malformed
input, `some (none, 1)` when the closing quote is reached, and
`some (some c, k)` when the next `k ≥ 1` source characters decode to `c`.
Strict mode: raw control characters are rejected. -/
def unescapeStep : List Char → Option (Option Char × ℕ)
  | [] => none
  | c :: rest =>
    if c == quoteChar then some (none, 1)
    else if c == bslashChar then
      match rest with
      | [] => none
      | e :: rest2 =>
        if e == quoteChar then some (some quoteChar, 2)
        else if e == bslashChar then some (some bslashChar, 2)
        else if e == slashChar then some (some slashChar, 2)
        else if e == 'b' then some (some (Char.ofNat 8), 2)
        else if e == 'f' then some (some (Char.ofNat 12), 2)
        else if e == 'n' then some (some (Char.ofNat 10), 2)
        else if e == 'r' then some (some (Char.ofNat 13), 2)
        else if e == 't' then some (some (Char.ofNat 9), 2)
        else if e == 'u' then
          match decodeUEscape rest2 with
          | some (ch, k) => some (some ch, k + 2)
          | none => none
        else none
    else if c.toNat < 32 then none
    else some (some c, 1)

/-- Iterate `unescapeStep` until the closing quote; `fuel` bounds the number
of steps (each step consumes at least one character, so one unit of fuel per
input character always suffices). -/
def parseStringBodyFuel : ℕ → List Char → Option (List Char × List Char)
  | 0, _ => none
  | fuel + 1, cs =>
    match unescapeStep cs with
    | none => none
    | some (none, n) => some ([], cs.drop n)
    | some (some c, n) => consParse c (parseStringBodyFuel fuel (cs.drop n))
termination_by structural fuel _ => fuel

/-- Parse the body of a JSON string literal (opening quote already consumed),
returning the decoded characters and the remaining input. -/
def parseStringBody (cs : List Char) : Option (List Char × List Char) :=
  parseStringBodyFuel (cs.length + 1) cs

def digitsToNat (ds : List Char) : ℕ :=
  ds.foldl (fun acc c => 10 * acc + (c.toNat - 48)) 0

/-- Parse a JSON number `-?(0|[1-9][0-9]*)(\.[0-9]+)?([eE][+-]?[0-9]+)?`. -/
def parseNumberBody (cs : List Char) : Option (ℚ × List Char) :=
  let signSplit : Bool × List Char :=
    match cs with
    | c :: rest => if c == minusChar then (true, rest) else (false, cs)
    | [] => (false, [])
  let negSign := signSplit.1
  let cs1 := signSplit.2
  let intDigits := cs1.takeWhile Char.isDigit
  let rest1 := cs1.dropWhile Char.isDigit
  if intDigits.isEmpty then none
  else if 2 ≤ intDigits.length ∧ intDigits.head? = some (Char.ofNat 48) then none
  else
    let fracStep : Option (ℚ × List Char) :=
      match rest1 with
      | p :: r2 =>
        if p == dotChar then
          let fd := r2.takeWhile Char.isDigit
          if fd.isEmpty then none
          else some ((digitsToNat fd : ℚ) / (10 : ℚ) ^ fd.length, r2.dropWhile Char.isDigit)
        else some (0, rest1)
      | [] => some (0, rest1)
    match fracStep with
    | none => none
    | some (fracVal, rest2) =>
      let expStep : Option (ℤ × List Char) :=
        match rest2 with
        | p :: r3 =>
          if p == 'e' || p == 'E' then
            let esignSplit : ℤ × List Char :=
              match r3 with
              | q :: r5 =>
                if q == plusChar then (1, r5)
                else if q == minusChar then (-1, r5)
                else (1, r3)
              | [] => (1, r3)
            let ed := esignSplit.2.takeWhile Char.isDigit
            if ed.isEmpty then none
            else some (esignSplit.1 * (digitsToNat ed : ℤ), esignSplit.2.dropWhile Char.isDigit)
          else some (0, rest2)
        | [] => some (0, rest2)
      match expStep with
      | none => none
      | some (ex, rest3) =>
        let mag : ℚ := ((digitsToNat intDigits : ℚ) + fracVal) * (10 : ℚ) ^ ex
        some (if negSign then -mag else mag, rest3)

mutual

/-- Recursive-descent JSON value parser; `fuel` bounds the recursion depth
(callers supply more fuel than the input length, which always suffices). -/
def parseValue : ℕ → List Char → Option (Json × List Char)
  | 0, _ => none
  | fuel + 1, cs =>
    let cs1 := cs.dropWhile isJsonWs
    match cs1 with
    | [] => none
    | c :: rest =>
      if c == quoteChar then
        (parseStringBody rest).map (fun p => (Json.str (String.mk p.1), p.2))
      else if c == lbraceChar then
        let cs2 := rest.dropWhile isJsonWs
        match cs2 with
        | d :: rest2 =>
          if d == rbraceChar then some (Json.obj [], rest2)
          else (parseMembers fuel cs2).map (fun p => (Json.obj p.1, p.2))
        | [] => none
      else if c == lbrackChar then
        let cs2 := rest.dropWhile isJsonWs
        match cs2 with
        | d :: rest2 =>
          if d == rbrackChar then some (Json.arr [], rest2)
          else (parseElems fuel cs2).map (fun p => (Json.arr p.1, p.2))
        | [] => none
      else
        match cs1 with
        | 't' :: 'r' :: 'u' :: 'e' :: r => some (Json.bool true, r)
        | 'f' :: 'a' :: 'l' :: 's' :: 'e' :: r => some (Json.bool false, r)
        | 'n' :: 'u' :: 'l' :: 'l' :: r => some (Json.null, r)
        | _ => (parseNumberBody cs1).map (fun p => (Json.num p.1, p.2))
termination_by structural fuel _ => fuel

/-- Parse a nonempty member list of an object, consuming the closing brace. -/
def parseMembers : ℕ → List Char → Option (List (String × Json) × List Char)
  | 0, _ => none
  | fuel + 1, cs =>
    let cs1 := cs.dropWhile isJsonWs
    match cs1 with
    | [] => none
    | c :: rest =>
      if c == quoteChar then
        match parseStringBody rest with
        | none => none
        | some (key, rest2) =>
          match rest2.dropWhile isJsonWs with
          | [] => none
          | d :: rest4 =>
            if d == ':' then
              match parseValue fuel rest4 with
              | none => none
              | some (v, rest5) =>
                match rest5.dropWhile isJsonWs with
                | [] => none
                | d2 :: rest7 =>
                  if d2 == ',' then
                    (parseMembers fuel rest7).map
                      (fun p => ((String.mk key, v) :: p.1, p.2))
                  else if d2 == rbraceChar then
                    some ([(String.mk key, v)], rest7)
                  else none
            else none
      else none
termination_by structural fuel _ => fuel

/-- Parse a nonempty element list of an array, consuming the closing bracket. -/
def parseElems : ℕ → List Char → Option (List Json × List Char)
  | 0, _ => none
  | fuel + 1, cs =>
    match parseValue fuel cs with
    | none => none
    | some (v, rest) =>
      match rest.dropWhile isJsonWs with
      | [] => none
      | d :: rest2 =>
        if d == ',' then
          (parseElems fuel rest2).map (fun p => (v :: p.1, p.2))
        else if d == rbrackChar then
          some ([v], rest2)
        else none
termination_by structural fuel _ => fuel

end

/-- `json.loads`: parse a complete document, allowing surrounding whitespace. -/
def loads (s : String) : Option Json :=
  let cs := s.data
  match parseValue (cs.length + 1) cs with
  | some (v, rest) => if (rest.dropWhile isJsonWs).isEmpty then some v else none
  | none => none

/-- Lookup in a parsed JSON object with Python-dict semantics: later duplicate
keys win (as in `dict(pairs)` built by `json.loads`). -/
def objLookup (members : List (String × Json)) (k : String) : Option Json :=
  (members.reverse.find? (fun p => p.1 == k)).map (fun p => p.2)

/-! ## Structured-output extraction (`openrouter.py`) -/

/-- `FactoidPayload(BaseModel)`: three plain `str` fields.  Pydantic v2 puts
no emptiness or length constraints on them. -/
structure FactoidPayload where
  text : String
  subject : String
  emoji : String
deriving DecidableEq, Repr

/-- `FactoidPayload.model_validate(data)`: `data` must be a mapping whose
`text`, `subject` and `emoji` entries are strings (pydantic's lax mode does
not coerce JSON numbers/booleans/null/containers to `str`); extra keys are
ignored. -/
def FactoidPayload.modelValidate (j : Json) : Option FactoidPayload :=
  match j with
  | Json.obj members =>
    match objLookup members ("text"), objLookup members ("subject"),
        objLookup members ("emoji") with
    | some (Json.str t), some (Json.str s), some (Json.str e) => some ⟨t, s, e⟩
    | _, _, _ => none
  | _ => none

/-- Python `str.strip()` (ASCII whitespace portion, see `isPyWs`). -/
def pyStripChars (l : List Char) : List Char :=
  ((l.dropWhile isPyWs).reverse.dropWhile isPyWs).reverse

def pyStrip (s : String) : String :=
  String.mk (pyStripChars s.data)

/-- Do the next three characters form a triple-backtick fence? -/
def isTripleAt (cs : List Char) : Bool :=
  decide (cs.take 3 = [backtickChar, backtickChar, backtickChar])

/-- Does the text contain a run of three backticks? -/
def hasTriple : List Char → Bool
  | [] => false
  | c :: rest => isTripleAt (c :: rest) || hasTriple rest

/-- Characters up to (excluding) the first triple-backtick run, if any. -/
def takeUntilTriple : List Char → Option (List Char)
  | [] => none
  | c :: rest =>
    if isTripleAt (c :: rest) then some []
    else (takeUntilTriple rest).map (fun l => c :: l)

/-- `re.search(r"```(?:json)?\s*([\s\S]*?)```", content)`: find the leftmost
opening fence; skip an optional literal `json` annotation and following
whitespace; lazily capture up to the next closing fence.  (If the first fence
has no closing fence then no later one does either — the skipped annotation
and whitespace contain no backticks — so the whole search fails.) -/
def fenceSearch : List Char → Option (List Char)
  | [] => none
  | c :: rest =>
    if isTripleAt (c :: rest) then
      let afterOpen := rest.drop 2
      let afterJson :=
        if decide (afterOpen.take 4 = ['j', 's', 'o', 'n']) then afterOpen.drop 4
        else afterOpen
      takeUntilTriple (afterJson.dropWhile isPyWs)
    else fenceSearch rest

/-- `_normalise_content` for string content (the multi-part list branch is
not exercised by any claim): take a fenced block's inner text if present,
else the whole content, stripped. -/
def normaliseContent (content : String) : String :=
  match fenceSearch content.data with
  | some inner => pyStrip (String.mk inner)
  | none => pyStrip content

/-- `_extract_factoid_fields`: normalise, `json.loads` (failure raises
`ValueError` — modelled `none`), validate, and return the stripped fields. -/
def extractFactoidFields (content : String) : Option (String × String × String) :=
  match loads (normaliseContent content) with
  | none => none
  | some data =>
    match FactoidPayload.modelValidate data with
    | none => none
    | some p => some (pyStrip p.text, pyStrip p.subject, pyStrip p.emoji)

/-- Arguments attached to a tool call: already-structured mapping, a string
needing a JSON decode, or missing/malformed. -/
inductive ToolArgs where
  | structured (members : List (String × Json))
  | encoded (s : String)
  | missing

/-- A tool call as seen by `_resolve_tool_call_name` / `_resolve_tool_call_args`
after the shape-probing adapters: a resolved name (if any) and its args. -/
structure ToolCall where
  name : Option String
  args : ToolArgs

/-- `_resolve_tool_call_args`: decode string args via `json.loads` (a decode
failure or a non-mapping result raises `ValueError` — modelled `none`). -/
def resolveToolCallArgs : ToolArgs → Option (List (String × Json))
  | .structured m => some m
  | .encoded s =>
    match loads s with
    | some (Json.obj m) => some m
    | _ => none
  | .missing => none

/-- `_FACTOID_TOOL_NAMES = {"make_factoid", "get_factoid"}`. -/
def FACTOID_TOOL_NAMES : List String := ["make_factoid", "get_factoid"]

/-- `_extract_factoid_from_tool_call`: scan for the first call whose name is
an accepted factoid tool name; resolve and validate its args (any raised
`ValueError` — unresolvable args or failed validation — is modelled `none`,
matching the caller's catch-and-fall-through); non-matching names are
skipped. -/
def extractFactoidFromToolCall : List ToolCall → Option (String × String × String)
  | [] => none
  | tc :: rest =>
    match tc.name with
    | some n =>
      if FACTOID_TOOL_NAMES.contains n then
        match resolveToolCallArgs tc.args with
        | none => none
        | some m =>
          match FactoidPayload.modelValidate (Json.obj m) with
          | none => none
          | some p => some (pyStrip p.text, pyStrip p.subject, pyStrip p.emoji)
      else extractFactoidFromToolCall rest
    | none => extractFactoidFromToolCall rest

/-- The part of a model response that extraction inspects. -/
structure Message where
  content : String
  tool_calls : List ToolCall

/-- The extraction step of `generate_factoid_completion`: try the tool path,
fall back to the free-text path on any `ValueError` from it. -/
def generateFactoidCompletionExtract (m : Message) : Option (String × String × String) :=
  match extractFactoidFromToolCall m.tool_calls with
  | some r => some r
  | none => extractFactoidFields m.content

/-! ### JSON encodings of a payload (used to state the round-trip claim) -/

def hexDigitChar (k : ℕ) : Char :=
  if k < 10 then Char.ofNat (48 + k) else Char.ofNat (87 + k)

/-- Escape one character for a JSON string literal: quote and backslash get
backslash escapes, control characters become `\u00XX`, everything else is
emitted verbatim. -/
def escapeChar (c : Char) : List Char :=
  if c == quoteChar then [bslashChar, quoteChar]
  else if c == bslashChar then [bslashChar, bslashChar]
  else if c.toNat < 32 then
    [bslashChar, 'u', Char.ofNat 48, Char.ofNat 48,
      hexDigitChar (c.toNat / 16), hexDigitChar (c.toNat % 16)]
  else [c]

def escapeChars (s : List Char) : List Char :=
  s.foldr (fun c acc => escapeChar c ++ acc) []

def renderString (s : List Char) : List Char :=
  quoteChar :: (escapeChars s ++ [quoteChar])

def renderPayloadInner (t s e : List Char) : List Char :=
  renderString ("text".data) ++ ':' :: renderString t
    ++ ',' :: renderString ("subject".data) ++ ':' :: renderString s
    ++ ',' :: renderString ("emoji".data) ++ ':' :: renderString e

/-- Canonical JSON encoding of a three-field payload. -/
def renderPayloadChars (t s e : List Char) : List Char :=
  lbraceChar :: (renderPayloadInner t s e ++ [rbraceChar])

/-- A response carrying the payload as plain JSON text. -/
def plainMessage (p : FactoidPayload) : Message :=
  ⟨String.mk (renderPayloadChars p.text.data p.subject.data p.emoji.data), []⟩

/-- A response carrying the payload in a ```json fenced block. -/
def fencedMessage (p : FactoidPayload) : Message :=
  ⟨String.mk
    (backtickChar :: backtickChar :: backtickChar :: 'j' :: 's' :: 'o' :: 'n' :: '\n' ::
      (renderPayloadChars p.text.data p.subject.data p.emoji.data ++
        '\n' :: backtickChar :: backtickChar :: [backtickChar])), []⟩

/-- A response carrying the payload as structured `make_factoid` arguments. -/
def toolStructuredMessage (p : FactoidPayload) : Message :=
  ⟨"", [⟨some ("make_factoid"),
    .structured [("text", .str p.text), ("subject", .str p.subject),
      ("emoji", .str p.emoji)]⟩]⟩

/-- A response carrying the payload as JSON-encoded `make_factoid` arguments. -/
def toolEncodedMessage (p : FactoidPayload) : Message :=
  ⟨"", [⟨some ("make_factoid"),
    .encoded (String.mk (renderPayloadChars p.text.data p.subject.data p.emoji.data))⟩]⟩

/-! ## Model resolution (`generator.py` and `factoid_agent.py`)

The OpenRouter catalog is represented by the data the resolvers read from it:
`none` models a fetch failure, otherwise each entry carries the model id and
whether its `supported_parameters` advertise tools (`model_supports_tools`).
`random.choice` is modelled by an arbitrary index `pick` reduced modulo the
candidate count. -/

def DEFAULT_FACTOID_MODEL : String := "openai/gpt-4o-mini"

structure CatalogModel where
  id : String
  supports_tools : Bool
deriving DecidableEq, Repr

/-- `_random_openrouter_model`: a uniformly random id from the whole catalog
(no capability filtering), or `None` when the fetch fails or no ids exist. -/
def randomOpenrouterModel (catalog : Option (List CatalogModel)) (pick : ℕ) :
    Option String :=
  match catalog with
  | none => none
  | some models =>
    let candidates := models.map (fun m => m.id)
    if candidates.isEmpty then none
    else candidates.get? (pick % candidates.length)

def randomOrDefaultModel (catalog : Option (List CatalogModel)) (pick : ℕ) : String :=
  match randomOpenrouterModel catalog pick with
  | some m => m
  | none => DEFAULT_FACTOID_MODEL

/-- `_resolve_model_key`: a truthy (non-empty) preferred key wins; otherwise a
random catalog id; otherwise the static default. -/
def resolveModelKey (preferred : Option String) (catalog : Option (List CatalogModel))
    (pick : ℕ) : String :=
  match preferred with
  | some p => if p.isEmpty then randomOrDefaultModel catalog pick else p
  | none => randomOrDefaultModel catalog pick

def isSubstringChars (needle : List Char) : List Char → Bool
  | [] => decide (needle = [])
  | c :: t => needle.isPrefixOf (c :: t) || isSubstringChars needle t

/-- Python `sub in s` on strings. -/
def strContains (s sub : String) : Bool := isSubstringChars sub.data s.data

def WELL_KNOWN_PROVIDERS : List String := ["openai/", "anthropic/", "google/", "mistralai/"]

/-- `not model_id.endswith(":free") and any(provider in model_id for ...)`. -/
def isPreferredModelId (id : String) : Bool :=
  !(":free".data.isSuffixOf id.data) && WELL_KNOWN_PROVIDERS.any (fun pr => strContains id pr)

/-- `_random_tool_supporting_model`: filter to tool-capable models, prefer
non-free well-known-provider ids, pick uniformly among the chosen set. -/
def randomToolSupportingModel (catalog : Option (List CatalogModel)) (pick : ℕ) :
    Option String :=
  match catalog with
  | none => none
  | some models =>
    let tool_candidates := (models.filter (fun m => m.supports_tools)).map (fun m => m.id)
    let preferred_candidates := tool_candidates.filter isPreferredModelId
    let candidates := if preferred_candidates.isEmpty then tool_candidates
      else preferred_candidates
    if candidates.isEmpty then none
    else candidates.get? (pick % candidates.length)

/-- The chat resolver's static default is
`getattr(settings, "FACTOID_AGENT_DEFAULT_MODEL", "openai/gpt-4o-mini")`; the
setting is always defined (`base.py` assigns it from `config.py`, whose
env-free default is `"openai/gpt-5-mini"`), so the `getattr` fallback literal
is dead and the resolved value is the settings default. -/
def FACTOID_AGENT_DEFAULT_MODEL : String := "openai/gpt-5-mini"

def chatRandomOrDefault (catalog : Option (List CatalogModel)) (pick : ℕ) : String :=
  match randomToolSupportingModel catalog pick with
  | some m => m
  | none => FACTOID_AGENT_DEFAULT_MODEL

/-- `_resolve_chat_model_key`. -/
def resolveChatModelKey (preferred : Option String) (catalog : Option (List CatalogModel))
    (pick : ℕ) : String :=
  match preferred with
  | some p => if p.isEmpty then chatRandomOrDefault catalog pick else p
  | none => chatRandomOrDefault catalog pick

/-! ## Generation orchestrator (`generate_factoid` in `generator.py`)

External effects are the data the orchestrator reads: the rate-limiter
outcome for its bucket (`some retry_after` = limited), whether the API key is
configured, and the combined invocation+extraction outcome of
`generate_factoid_completion` (`Except.error msg` models any raised
exception).  The returned `GenState` collects the rows the call created and
the cost guard after the call. -/

structure GenerationResult where
  text : String
  subject : String
  emoji : String
deriving DecidableEq, Repr

inductive RequestStatus where
  | pending
  | running
  | succeeded
  | failed
  | cancelled
deriving DecidableEq, Repr

structure GenRequestRecord where
  model_key : String
  status : RequestStatus
  error_message : Option String
  actual_cost_usd : Option ℚ
deriving DecidableEq, Repr

structure FactoidRecord where
  text : String
  subject : String
  emoji : String
deriving DecidableEq, Repr

/-- `_persist_factoid`: stores `text`, `subject[:255]`, `emoji[:16]`. -/
def persistFactoid (result : GenerationResult) : FactoidRecord :=
  ⟨result.text, String.mk (result.subject.data.take 255),
    String.mk (result.emoji.data.take 16)⟩

inductive GenOutcome where
  | rateLimited (retry_after : ℚ)
  | budgetExceeded (remaining : Option ℚ)
  | generationFailed (detail : String)
  | ok (factoid : FactoidRecord)
deriving DecidableEq, Repr

structure GenState where
  requests : List GenRequestRecord
  factoids : List FactoidRecord
  guard : CostGuard
deriving DecidableEq, Repr

/-- `generate_factoid`: rate check (raising `RateLimitExceededError` before
any row is created), budget check (`CostBudgetExceededError`), API-key check,
then the completion; on completion failure the request row is marked failed
with the error stored and no cost is recorded; on success the factoid is
persisted, the row marked succeeded with `actual_cost_usd = 0.1`, and
`guard.record(profile, 0.1)` is called. -/
def generateFactoid (rate : Option ℚ) (guard : CostGuard) (profile : String)
    (apiKeyPresent : Bool) (resolvedModel : String)
    (completion : Except String GenerationResult) : GenOutcome × GenState :=
  match rate with
  | some retry => (.rateLimited retry, ⟨[], [], guard⟩)
  | none =>
    let decision := guard.evaluate profile (1/10)
    if !decision.allowed then
      (.budgetExceeded decision.remaining_budget, ⟨[], [], guard⟩)
    else if !apiKeyPresent then
      (.generationFailed ("OpenRouter API key is not configured"), ⟨[], [], guard⟩)
    else
      match completion with
      | .error msg =>
          (.generationFailed ("Failed to generate factoid"),
            ⟨[⟨resolvedModel, .failed, some msg, none⟩], [], guard⟩)
      | .ok result =>
          let factoid := persistFactoid result
          (.ok factoid,
            ⟨[⟨resolvedModel, .succeeded, none, some (1/10)⟩], [factoid],
              CostGuard.record guard profile (1/10)⟩)

/-! ## Chat-agent retry policy and loop (`factoid_agent.py`) -/

def TRANSIENT_KEYWORDS : List String := ["rate limit", "429", "temporarily", "quota"]

def toLowerStr (s : String) : String := String.mk (s.data.map Char.toLower)

/-- `any(keyword in str(exc).lower() for keyword in [...])`. -/
def isTransientError (msg : String) : Bool :=
  TRANSIENT_KEYWORDS.any (fun kw => isSubstringChars kw.data (toLowerStr msg).data)

/-- `_get_fallback_model()`. -/
def FALLBACK_MODEL : String := "openai/gpt-4o-mini"

/-- `run_factoid_agent`'s try/except around `agent.run`: agent answers are
opaque (numbered); each attempt's outcome is supplied as data.  Returns the
final outcome and the list of models invoked, in order.  On a transient
first error with a distinct fallback model, a failed fallback re-raises the
original exception. -/
def runFactoidAgentRetry (resolvedModel : String) (firstAttempt : Except String ℕ)
    (fallbackAttempt : Except String ℕ) : Except String ℕ × List String :=
  match firstAttempt with
  | .ok a => (.ok a, [resolvedModel])
  | .error e =>
    if isTransientError e then
      if FALLBACK_MODEL ≠ resolvedModel then
        match fallbackAttempt with
        | .ok a => (.ok a, [resolvedModel, FALLBACK_MODEL])
        | .error _ => (.error e, [resolvedModel, FALLBACK_MODEL])
      else (.error e, [resolvedModel])
    else (.error e, [resolvedModel])

/-- The `invoke_config` built by `FactoidAgent.run`:
`{"configurable": {"recursion_limit": 6}, "run_name": "factoid_chat"}` —
integer-valued keys only, which is all the claim needs. -/
structure RunnableConfigModel where
  recursion_limit : Option ℕ
  configurable : List (String × ℕ)
deriving DecidableEq, Repr

def agentInvokeConfig : RunnableConfigModel := ⟨none, [("recursion_limit", 6)]⟩

/-- Modelled from LangGraph (external library): `Pregel.invoke` reads its step
bound from the top-level `recursion_limit` config key, defaulting to 25;
entries under `configurable` are user-defined values it never consults for
the bound. -/
def effectiveRecursionLimit (c : RunnableConfigModel) : ℕ :=
  c.recursion_limit.getD 25

/-- The compiled graph of `FactoidAgent._build_graph`: entry `agent`;
`tools_condition` sends a tool-calling response to `tools`, which loops back
to `agent`; a plain answer ends the run.  Each node execution is one
super-step counted against the recursion limit; exhausting it raises
`GraphRecursionError` (`.error ()`).  `requestsTools n` tells whether the
model's `n`-th response carries tool calls; the result carries the number of
model invocations made. -/
def runAgentGraph (requestsTools : ℕ → Bool) :
    ℕ → ℕ → Bool → Except Unit ℕ × ℕ
  | 0, agentCalls, _ => (.error (), agentCalls)
  | n + 1, agentCalls, true => runAgentGraph requestsTools n agentCalls false
  | n + 1, agentCalls, false =>
      if requestsTools agentCalls then
        runAgentGraph requestsTools n (agentCalls + 1) true
      else (.ok (agentCalls + 1), agentCalls + 1)

/-- `FactoidAgent.run`: invoke the graph under the config it builds. -/
def FactoidAgent.run (requestsTools : ℕ → Bool) : Except Unit ℕ × ℕ :=
  runAgentGraph requestsTools (effectiveRecursionLimit agentInvokeConfig) 0 false

/-! ### Rate-limiter lemmas -/

theorem dropWhile_eq_self_of_head (p : ℚ → Bool) (l : List ℚ)
    (h : ∀ x ∈ l, p x = false) : l.dropWhile p = l := by
  cases l with
  | nil => rfl
  | cons a t => simp [List.dropWhile_cons, h a (List.mem_cons_self a t)]

theorem dropWhile_eq_nil_of_all (p : ℚ → Bool) (l : List ℚ)
    (h : ∀ x ∈ l, p x = true) : l.dropWhile p = [] := by
  induction l with
  | nil => rfl
  | cons a t ih =>
      simp only [List.dropWhile_cons, h a (List.mem_cons_self a t), if_true]
      exact ih (fun x hx => h x (List.mem_cons_of_mem a hx))

/-- On a `≤`-sorted deque, popping old entries from the left is the same as
filtering out every entry older than the cutoff. -/
theorem dropWhile_lt_eq_filter_of_sorted (c : ℚ) :
    ∀ l : List ℚ, l.Pairwise (· ≤ ·) →
      l.dropWhile (fun t => decide (t < c)) = l.filter (fun t => decide (c ≤ t)) := by
  intro l hl
  induction l with
  | nil => rfl
  | cons a t ih =>
      rcases List.pairwise_cons.mp hl with ⟨ha, ht⟩
      by_cases h : a < c
      · have h1 : decide (a < c) = true := decide_eq_true h
        have h2 : decide (c ≤ a) = false := decide_eq_false (not_le.mpr h)
        simp only [List.dropWhile_cons, List.filter_cons]
        rw [h1, h2]
        simpa using ih ht
      · have h1 : decide (a < c) = false := decide_eq_false h
        have h2 : decide (c ≤ a) = true := decide_eq_true (not_lt.mp h)
        have hrest : t.filter (fun x => decide (c ≤ x)) = t := by
          apply List.filter_eq_self.mpr
          intro x hx
          exact decide_eq_true (le_trans (not_lt.mp h) (ha x hx))
        simp only [List.dropWhile_cons, List.filter_cons]
        rw [h1, h2]
        simp [hrest]

/-- Starting from a deque whose entries all lie in the window `[a, a + window]`,
calls at times inside the same window never prune and all succeed as long as
the total count stays at or below the limit. -/
theorem InMemoryRateLimiter.run_all_allowed (cfg : RateLimitConfig) (a : ℚ) :
    ∀ (ts pre : List ℚ),
      (∀ x ∈ pre, a ≤ x ∧ x ≤ a + cfg.window_seconds) →
      (∀ x ∈ ts, a ≤ x ∧ x ≤ a + cfg.window_seconds) →
      pre.length + ts.length ≤ cfg.limit →
      InMemoryRateLimiter.run cfg ts pre =
        (List.replicate ts.length .allowed, pre ++ ts) := by
  intro ts
  induction ts with
  | nil => intro pre _ _ _; simp [InMemoryRateLimiter.run]
  | cons t ts ih =>
      intro pre hpre hts hlen
      simp only [List.length_cons] at hlen
      have htw : a ≤ t ∧ t ≤ a + cfg.window_seconds :=
        hts t (List.mem_cons_self t ts)
      have hnoprune :
          pre.dropWhile (fun x => decide (x < t - cfg.window_seconds)) = pre := by
        apply dropWhile_eq_self_of_head
        intro x hx
        have hax : a ≤ x := (hpre x hx).1
        have : ¬ x < t - cfg.window_seconds := by
          have : t - cfg.window_seconds ≤ a := by linarith [htw.2]
          linarith
        simp [this]
      have hcnt : ¬ cfg.limit ≤ pre.length := by omega
      have hstep : InMemoryRateLimiter.check cfg t pre = (.allowed, pre ++ [t]) := by
        simp only [InMemoryRateLimiter.check, hnoprune, hcnt, if_false]
      have hrest :
          InMemoryRateLimiter.run cfg ts (pre ++ [t]) =
            (List.replicate ts.length .allowed, (pre ++ [t]) ++ ts) := by
        apply ih
        · intro x hx
          rcases List.mem_append.mp hx with h | h
          · exact hpre x h
          · simp at h; subst h; exact htw
        · intro x hx; exact hts x (List.mem_cons_of_mem t hx)
        · simp only [List.length_append, List.length_singleton]
          omega
      simp only [InMemoryRateLimiter.run, hstep, hrest, List.length_cons,
        List.replicate_succ, List.append_assoc, List.singleton_append]

/-- C1: the in-memory rate limiter implements a sliding window.
Part (i): a single `check` call on a sorted deque prunes exactly the
timestamps older than `now - window_seconds`; if the remaining count reaches
the limit it fails with `retry_after = max(oldest + window - now, 0) ≥ 0`
without recording, otherwise it records `now` and succeeds.
Part (ii): from an empty bucket, `limit` successful calls within one window
fill the bucket; the next call in the same window fails with a nonnegative
`retry_after` and leaves the deque unchanged; once the whole window has
elapsed a further call succeeds again. -/
theorem inMemory_check_sliding_window :
    (∀ (cfg : RateLimitConfig) (now : ℚ) (entries : List ℚ),
      entries.Pairwise (· ≤ ·) → 1 ≤ cfg.limit →
      (entries.dropWhile (fun t => decide (t < now - cfg.window_seconds)) =
        entries.filter (fun t => decide (now - cfg.window_seconds ≤ t))) ∧
      (∀ pruned, pruned = entries.filter (fun t => decide (now - cfg.window_seconds ≤ t)) →
        (cfg.limit ≤ pruned.length →
          ∃ t0 rest, pruned = t0 :: rest ∧
            InMemoryRateLimiter.check cfg now entries =
              (.exceeded (max (t0 + cfg.window_seconds - now) 0), pruned) ∧
            0 ≤ max (t0 + cfg.window_seconds - now) 0) ∧
        (pruned.length < cfg.limit →
          InMemoryRateLimiter.check cfg now entries = (.allowed, pruned ++ [now])))) ∧
    (∀ (cfg : RateLimitConfig) (a : ℚ) (ts : List ℚ) (t2 t3 : ℚ),
      1 ≤ cfg.limit → ts.length = cfg.limit →
      (∀ x ∈ ts, a ≤ x ∧ x ≤ a + cfg.window_seconds) →
      a ≤ t2 → t2 ≤ a + cfg.window_seconds →
      (∀ x ∈ ts, x < t3 - cfg.window_seconds) →
      InMemoryRateLimiter.run cfg ts [] = (List.replicate cfg.limit .allowed, ts) ∧
      (∃ r, InMemoryRateLimiter.check cfg t2 ts = (.exceeded r, ts) ∧ 0 ≤ r) ∧
      (InMemoryRateLimiter.check cfg t3 ts).1 = .allowed) := by
  constructor
  · intro cfg now entries hsort hlim
    have hpr := dropWhile_lt_eq_filter_of_sorted (now - cfg.window_seconds) entries hsort
    refine ⟨hpr, ?_⟩
    intro pruned hpruned
    subst hpruned
    constructor
    · intro hge
      have hne : entries.filter (fun t => decide (now - cfg.window_seconds ≤ t)) ≠ [] := by
        intro hnil
        rw [hnil] at hge
        simp only [List.length_nil] at hge
        omega
      rcases List.exists_cons_of_ne_nil hne with ⟨t0, rest, hcons⟩
      refine ⟨t0, rest, hcons, ?_, le_max_right _ _⟩
      simp only [InMemoryRateLimiter.check, hpr, hcons]
      rw [← hcons]
      rw [if_pos hge]
    · intro hlt
      have hnotge : ¬ cfg.limit ≤
          (entries.filter (fun t => decide (now - cfg.window_seconds ≤ t))).length :=
        not_le.mpr hlt
      simp only [InMemoryRateLimiter.check, hpr]
      rw [if_neg hnotge]
  · intro cfg a ts t2 t3 hlim hlen hin ht2a ht2b ht3
    have hrun :
        InMemoryRateLimiter.run cfg ts [] = (List.replicate ts.length .allowed, ts) := by
      have := InMemoryRateLimiter.run_all_allowed cfg a ts []
        (by intro x hx; cases hx) hin (by simpa using le_of_eq hlen)
      simpa using this
    have hne : ts ≠ [] := by
      intro hnil
      rw [hnil] at hlen
      simp only [List.length_nil] at hlen
      omega
    rcases List.exists_cons_of_ne_nil hne with ⟨t0, rest, hcons⟩
    have hnoprune :
        ts.dropWhile (fun x => decide (x < t2 - cfg.window_seconds)) = ts := by
      apply dropWhile_eq_self_of_head
      intro x hx
      have : ¬ x < t2 - cfg.window_seconds := by
        have h1 : a ≤ x := (hin x hx).1
        linarith
      simp [this]
    have hge : cfg.limit ≤ ts.length := le_of_eq hlen.symm
    refine ⟨by rw [hrun, hlen], ⟨max (t0 + cfg.window_seconds - t2) 0, ?_, le_max_right _ _⟩, ?_⟩
    · simp only [InMemoryRateLimiter.check, hnoprune]
      rw [if_pos hge, hcons]
    · have hallprune :
          ts.dropWhile (fun x => decide (x < t3 - cfg.window_seconds)) = [] := by
        apply dropWhile_eq_nil_of_all
        intro x hx
        simp [ht3 x hx]
      have hnotge : ¬ cfg.limit ≤ ([] : List ℚ).length := by
        simp only [List.length_nil]
        omega
      simp only [InMemoryRateLimiter.check, hallprune]
      rw [if_neg hnotge]

/-- Witness for `inMemory_check_sliding_window` at a concrete configuration:
window 60s, limit 2, calls at times 10 and 30, a blocked call at 40 and a
successful call at 100. -/
theorem inMemory_check_sliding_window_witness :
    InMemoryRateLimiter.run ⟨60, 2⟩ [10, 30] [] =
      (List.replicate 2 .allowed, [10, 30]) ∧
    (∃ r, InMemoryRateLimiter.check ⟨60, 2⟩ 40 [10, 30] = (.exceeded r, [10, 30]) ∧ 0 ≤ r) ∧
    (InMemoryRateLimiter.check ⟨60, 2⟩ 100 [10, 30]).1 = .allowed := by
  have h := inMemory_check_sliding_window.2 ⟨60, 2⟩ 10 [10, 30] 40 100
    (by norm_num) (by norm_num)
    (by intro x hx; simp at hx; rcases hx with h | h <;> subst h <;> norm_num)
    (by norm_num) (by norm_num)
    (by intro x hx; simp at hx; rcases hx with h | h <;> subst h <;> norm_num)
  exact h

/-- C2: `CostGuard.evaluate` semantics.  A profile with no configured budget is
always allowed with unknown remaining budget; otherwise, with budget `B` and
recorded usage `U`, the call is allowed iff `expected_cost ≤ B - U`, with
remaining `B - U - expected_cost` when allowed and `max (B - U) 0` when
denied. -/
theorem costGuard_evaluate_semantics :
    ∀ (g : CostGuard) (profile : String) (c : ℚ),
      (g.getBudget profile = none →
        g.evaluate profile c = ⟨true, "no-budget", none⟩) ∧
      (∀ B, g.getBudget profile = some B →
        ((g.evaluate profile c).allowed = true ↔
          c ≤ B - (dictGet g.profile_usage profile).getD 0) ∧
        (c ≤ B - (dictGet g.profile_usage profile).getD 0 →
          g.evaluate profile c =
            ⟨true, "allowed", some (B - (dictGet g.profile_usage profile).getD 0 - c)⟩) ∧
        (¬ c ≤ B - (dictGet g.profile_usage profile).getD 0 →
          g.evaluate profile c =
            ⟨false, "budget-exceeded",
              some (max (B - (dictGet g.profile_usage profile).getD 0) 0)⟩)) := by
  intro g profile c
  constructor
  · intro h
    simp [CostGuard.evaluate, h]
  · intro B hB
    by_cases hc : c ≤ B - (dictGet g.profile_usage profile).getD 0
    · have hnotgt : ¬ c > B - (dictGet g.profile_usage profile).getD 0 := not_lt.mpr hc
      refine ⟨?_, fun _ => ?_, fun hcontra => absurd hc hcontra⟩
      · simp [CostGuard.evaluate, hB, hnotgt, hc]
      · simp [CostGuard.evaluate, hB, hnotgt]
    · have hgt : c > B - (dictGet g.profile_usage profile).getD 0 := not_le.mp hc
      refine ⟨?_, fun hcontra => absurd hcontra hc, fun _ => ?_⟩
      · simp [CostGuard.evaluate, hB, hgt]
      · simp [CostGuard.evaluate, hB, hgt]

/-- Witness for `costGuard_evaluate_semantics`: budget 1, usage 3/10,
expected cost 1/10 is allowed with remaining 6/10; expected cost 1 is denied
with remaining 7/10. -/
theorem costGuard_evaluate_semantics_witness :
    CostGuard.evaluate ⟨[("anonymous", 1)], [("anonymous", 3/10)]⟩ "anonymous" (1/10) =
      ⟨true, "allowed", some (6/10)⟩ ∧
    CostGuard.evaluate ⟨[("anonymous", 1)], [("anonymous", 3/10)]⟩ "anonymous" 1 =
      ⟨false, "budget-exceeded", some (7/10)⟩ := by
  constructor
  · have h := ((costGuard_evaluate_semantics
      ⟨[("anonymous", 1)], [("anonymous", 3/10)]⟩ "anonymous" (1/10)).2 1
      (by rfl)).2.1 (by norm_num [dictGet])
    rw [h]
    norm_num [dictGet]
  · have h := ((costGuard_evaluate_semantics
      ⟨[("anonymous", 1)], [("anonymous", 3/10)]⟩ "anonymous" 1).2 1
      (by rfl)).2.2 (by norm_num [dictGet])
    rw [h]
    norm_num [dictGet]

/-- C10: the Redis-backed rate limiter fails closed.  When the pruning/count
pipeline raises, `check` reports the limit as exceeded with `retry_after = 0`
instead of allowing the request. -/
theorem redis_check_fails_closed :
    ∀ (cfg : RateLimitConfig) (now : ℚ) (oldest : Option ℚ),
      RedisRateLimiter.check cfg now (.error ()) oldest = .exceeded 0 ∧
      RedisRateLimiter.check cfg now (.error ()) oldest ≠ .allowed := by
  intro cfg now oldest
  exact ⟨rfl, by simp [RedisRateLimiter.check]⟩

/-! ### JSON parser lemmas -/

theorem hexVal_hexChar : ∀ k : ℕ, k < 16 → hexDigitVal (hexDigitChar k) = some k := by
  decide

/-- One unescape step consumes exactly one escaped character. -/
theorem unescapeStep_escapeChar (c : Char) (rest : List Char) :
    unescapeStep (escapeChar c ++ rest) = some (some c, (escapeChar c).length) := by
  by_cases hq : c = quoteChar
  · subst hq; rfl
  · by_cases hb : c = bslashChar
    · subst hb; rfl
    · have hq' : (c == quoteChar) = false := beq_eq_false_iff_ne.mpr hq
      have hb' : (c == bslashChar) = false := beq_eq_false_iff_ne.mpr hb
      by_cases hc : c.toNat < 32
      · have hesc : escapeChar c = [bslashChar, 'u', Char.ofNat 48, Char.ofNat 48,
            hexDigitChar (c.toNat / 16), hexDigitChar (c.toNat % 16)] := by
          simp only [escapeChar, hq', hb', Bool.false_eq_true, if_false, ite_false]
          rw [if_pos hc]
        have hhd := hexVal_hexChar (c.toNat / 16) (by omega)
        have hhm := hexVal_hexChar (c.toNat % 16) (by omega)
        have hdec : decodeUEscape (Char.ofNat 48 :: Char.ofNat 48 ::
            hexDigitChar (c.toNat / 16) :: hexDigitChar (c.toNat % 16) :: rest) =
            some (c, 4) := by
          have hz : hexDigitVal (Char.ofNat 48) = some 0 := by decide
          simp only [decodeUEscape, hex4, hz, hhd, hhm]
          rw [if_neg (by omega), if_neg (by omega)]
          have hval : 4096 * 0 + 256 * 0 + 16 * (c.toNat / 16) + c.toNat % 16 = c.toNat := by
            omega
          rw [hval, Char.ofNat_toNat]
        have cb1 : (bslashChar == quoteChar) = false := by decide
        have cb2 : (bslashChar == bslashChar) = true := by decide
        have cu1 : (('u' : Char) == quoteChar) = false := by decide
        have cu2 : (('u' : Char) == bslashChar) = false := by decide
        have cu3 : (('u' : Char) == slashChar) = false := by decide
        have cu4 : (('u' : Char) == 'b') = false := by decide
        have cu5 : (('u' : Char) == 'f') = false := by decide
        have cu6 : (('u' : Char) == 'n') = false := by decide
        have cu7 : (('u' : Char) == 'r') = false := by decide
        have cu8 : (('u' : Char) == 't') = false := by decide
        have cu9 : (('u' : Char) == 'u') = true := by decide
        rw [hesc]
        simp only [List.cons_append, List.nil_append, unescapeStep, cb1, cb2, cu1, cu2,
          cu3, cu4, cu5, cu6, cu7, cu8, cu9, Bool.false_eq_true, if_false, if_true,
          ite_false, ite_true, hdec]
        simp
      · have hesc : escapeChar c = [c] := by
          simp only [escapeChar, hq', hb', Bool.false_eq_true, if_false, ite_false]
          rw [if_neg hc]
        rw [hesc]
        simp only [List.cons_append, List.nil_append, unescapeStep, hq', hb',
          Bool.false_eq_true, if_false, ite_false]
        rw [if_neg hc]
        simp

theorem escapeChar_ne_nil (c : Char) : escapeChar c ≠ [] := by
  unfold escapeChar
  split_ifs <;> simp

theorem length_le_length_escapeChars (s : List Char) :
    s.length ≤ (escapeChars s).length := by
  induction s with
  | nil => simp [escapeChars]
  | cons c s ih =>
      have h1 : escapeChars (c :: s) = escapeChar c ++ escapeChars s := by
        simp [escapeChars]
      have h2 : 0 < (escapeChar c).length :=
        List.length_pos.mpr (escapeChar_ne_nil c)
      rw [h1, List.length_append, List.length_cons]
      omega

/-- Decoding inverts the canonical string escaping, given enough fuel. -/
theorem parseStringBodyFuel_escapes :
    ∀ (s : List Char) (f : ℕ) (rest : List Char), s.length < f →
      parseStringBodyFuel f (escapeChars s ++ (quoteChar :: rest)) = some (s, rest) := by
  intro s
  induction s with
  | nil =>
      intro f rest hf
      match f, hf with
      | g + 1, _ =>
        have h1 : unescapeStep (quoteChar :: rest) = some (none, 1) := rfl
        have h0 : escapeChars ([] : List Char) = [] := rfl
        rw [h0, List.nil_append]
        simp only [parseStringBodyFuel]
        rw [h1]
        rfl
  | cons c s ih =>
      intro f rest hf
      match f, hf with
      | g + 1, hfs =>
        have hs : s.length < g := by
          simp only [List.length_cons] at hfs
          omega
        have hl : escapeChars (c :: s) ++ (quoteChar :: rest) =
            escapeChar c ++ (escapeChars s ++ (quoteChar :: rest)) := by
          simp [escapeChars, List.append_assoc]
        rw [hl]
        simp only [parseStringBodyFuel]
        rw [unescapeStep_escapeChar]
        simp only [List.drop_left]
        rw [ih g rest hs]
        rfl

/-- Decoding inverts the canonical string escaping. -/
theorem parseStringBody_escapes :
    ∀ (s rest : List Char),
      parseStringBody (escapeChars s ++ (quoteChar :: rest)) = some (s, rest) := by
  intro s rest
  have hlen : s.length < (escapeChars s ++ (quoteChar :: rest)).length + 1 := by
    have := length_le_length_escapeChars s
    simp only [List.length_append, List.length_cons]
    omega
  exact parseStringBodyFuel_escapes s _ rest hlen

/-- Successful parses are preserved when the fuel is incremented. -/
theorem parse_mono_step :
    ∀ f : ℕ,
      (∀ cs r, parseValue f cs = some r → parseValue (f + 1) cs = some r) ∧
      (∀ cs r, parseMembers f cs = some r → parseMembers (f + 1) cs = some r) ∧
      (∀ cs r, parseElems f cs = some r → parseElems (f + 1) cs = some r) := by
  intro f
  induction f with
  | zero =>
      refine ⟨?_, ?_, ?_⟩ <;> intro cs r h <;>
        simp [parseValue, parseMembers, parseElems] at h
  | succ f ih =>
      obtain ⟨ihV, ihM, ihE⟩ := ih
      refine ⟨?_, ?_, ?_⟩
      · intro cs r h
        simp only [parseValue] at h ⊢
        cases hcs : List.dropWhile isJsonWs cs with
        | nil => simp only [hcs] at h; exact Option.noConfusion h
        | cons c rest =>
            simp only [hcs] at h ⊢
            by_cases h1 : (c == quoteChar) = true
            · rw [if_pos h1] at h ⊢; exact h
            · rw [if_neg h1] at h ⊢
              by_cases h2 : (c == lbraceChar) = true
              · rw [if_pos h2] at h ⊢
                cases hcs2 : List.dropWhile isJsonWs rest with
                | nil => simp only [hcs2] at h; exact Option.noConfusion h
                | cons d rest2 =>
                    simp only [hcs2] at h ⊢
                    by_cases h3 : (d == rbraceChar) = true
                    · rw [if_pos h3] at h ⊢; exact h
                    · rw [if_neg h3] at h ⊢
                      obtain ⟨p, hp, hgp⟩ := Option.map_eq_some'.mp h
                      rw [Option.map_eq_some']
                      exact ⟨p, ihM _ _ hp, hgp⟩
              · rw [if_neg h2] at h ⊢
                by_cases h4 : (c == lbrackChar) = true
                · rw [if_pos h4] at h ⊢
                  cases hcs2 : List.dropWhile isJsonWs rest with
                  | nil => simp only [hcs2] at h; exact Option.noConfusion h
                  | cons d rest2 =>
                      simp only [hcs2] at h ⊢
                      by_cases h5 : (d == rbrackChar) = true
                      · rw [if_pos h5] at h ⊢; exact h
                      · rw [if_neg h5] at h ⊢
                        obtain ⟨p, hp, hgp⟩ := Option.map_eq_some'.mp h
                        rw [Option.map_eq_some']
                        exact ⟨p, ihE _ _ hp, hgp⟩
                · rw [if_neg h4] at h ⊢; exact h
      · intro cs r h
        simp only [parseMembers] at h ⊢
        cases hcs : List.dropWhile isJsonWs cs with
        | nil => simp only [hcs] at h; exact Option.noConfusion h
        | cons c rest =>
            simp only [hcs] at h ⊢
            by_cases h1 : (c == quoteChar) = true
            · rw [if_pos h1] at h ⊢
              cases hsb : parseStringBody rest with
              | none => simp only [hsb] at h; exact Option.noConfusion h
              | some kp =>
                  obtain ⟨key, rest2⟩ := kp
                  simp only [hsb] at h ⊢
                  cases hd : List.dropWhile isJsonWs rest2 with
                  | nil => simp only [hd] at h; exact Option.noConfusion h
                  | cons d rest4 =>
                      simp only [hd] at h ⊢
                      by_cases h2 : (d == ':') = true
                      · rw [if_pos h2] at h ⊢
                        cases hv : parseValue f rest4 with
                        | none => simp only [hv] at h; exact Option.noConfusion h
                        | some vp =>
                            obtain ⟨v, rest5⟩ := vp
                            simp only [hv] at h
                            simp only [ihV _ _ hv]
                            cases hd2 : List.dropWhile isJsonWs rest5 with
                            | nil => simp only [hd2] at h; exact Option.noConfusion h
                            | cons d2 rest7 =>
                                simp only [hd2] at h ⊢
                                by_cases h3 : (d2 == ',') = true
                                · rw [if_pos h3] at h ⊢
                                  obtain ⟨p, hp, hgp⟩ := Option.map_eq_some'.mp h
                                  rw [Option.map_eq_some']
                                  exact ⟨p, ihM _ _ hp, hgp⟩
                                · rw [if_neg h3] at h ⊢; exact h
                      · rw [if_neg h2] at h ⊢; exact h
            · rw [if_neg h1] at h ⊢; exact h
      · intro cs r h
        simp only [parseElems] at h ⊢
        cases hv : parseValue f cs with
        | none => simp only [hv] at h; exact Option.noConfusion h
        | some vp =>
            obtain ⟨v, rest⟩ := vp
            simp only [hv] at h
            simp only [ihV _ _ hv]
            cases hd : List.dropWhile isJsonWs rest with
            | nil => simp only [hd] at h; exact Option.noConfusion h
            | cons d rest2 =>
                simp only [hd] at h ⊢
                by_cases h1 : (d == ',') = true
                · rw [if_pos h1] at h ⊢
                  obtain ⟨p, hp, hgp⟩ := Option.map_eq_some'.mp h
                  rw [Option.map_eq_some']
                  exact ⟨p, ihE _ _ hp, hgp⟩
                · rw [if_neg h1] at h ⊢; exact h

/-- Successful parses are preserved by any increase of the fuel. -/
theorem parseValue_mono (f g : ℕ) (hfg : f ≤ g) :
    ∀ cs r, parseValue f cs = some r → parseValue g cs = some r := by
  obtain ⟨k, rfl⟩ := Nat.exists_eq_add_of_le hfg
  clear hfg
  induction k with
  | zero => intro cs r h; exact h
  | succ k ih =>
      intro cs r h
      have hstep := (parse_mono_step (f + k)).1 cs r (ih cs r h)
      rw [Nat.add_succ]
      exact hstep

theorem string_mk_data (s : String) : String.mk s.data = s := rfl

/-- Parsing a rendered string literal. -/
theorem parseValue_renderString (f : ℕ) (s rest : List Char) :
    parseValue (f + 1) (quoteChar :: (escapeChars s ++ (quoteChar :: rest))) =
      some (Json.str (String.mk s), rest) := by
  have hws : isJsonWs quoteChar = false := by decide
  have hqq : (quoteChar == quoteChar) = true := by decide
  simp only [parseValue, List.dropWhile_cons, hws, Bool.false_eq_true, if_false]
  rw [if_pos hqq, parseStringBody_escapes]
  rfl

/-- Parsing one `"key":"value",` object member. -/
theorem parseMembers_pair (f : ℕ) (k v tail : List Char) :
    parseMembers (f + 2)
      (quoteChar :: (escapeChars k ++ (quoteChar :: (':' ::
        (quoteChar :: (escapeChars v ++ (quoteChar :: (',' :: tail)))))))) =
      (parseMembers (f + 1) tail).map
        (fun p => ((String.mk k, Json.str (String.mk v)) :: p.1, p.2)) := by
  have hws : isJsonWs quoteChar = false := by decide
  have hwsc : isJsonWs ':' = false := by decide
  have hwscm : isJsonWs ',' = false := by decide
  have hqq : (quoteChar == quoteChar) = true := by decide
  have hcc : ((':' : Char) == ':') = true := by decide
  have hmm : ((',' : Char) == ',') = true := by decide
  simp only [parseMembers, List.dropWhile_cons, hws, Bool.false_eq_true, if_false]
  rw [if_pos hqq, parseStringBody_escapes]
  simp only [List.dropWhile_cons, hwsc, Bool.false_eq_true, if_false]
  rw [if_pos hcc]
  rw [parseValue_renderString f v (',' :: tail)]
  simp only [List.dropWhile_cons, hwscm, Bool.false_eq_true, if_false]
  rw [if_pos hmm]

/-- Parsing the final `"key":"value"` object member and the closing brace. -/
theorem parseMembers_lastPair (f : ℕ) (k v rest : List Char) :
    parseMembers (f + 2)
      (quoteChar :: (escapeChars k ++ (quoteChar :: (':' ::
        (quoteChar :: (escapeChars v ++ (quoteChar :: (rbraceChar :: rest)))))))) =
      some ([(String.mk k, Json.str (String.mk v))], rest) := by
  have hws : isJsonWs quoteChar = false := by decide
  have hwsc : isJsonWs ':' = false := by decide
  have hwsb : isJsonWs rbraceChar = false := by decide
  have hqq : (quoteChar == quoteChar) = true := by decide
  have hcc : ((':' : Char) == ':') = true := by decide
  have hbm : (rbraceChar == ',') = false := by decide
  have hbb : (rbraceChar == rbraceChar) = true := by decide
  simp only [parseMembers, List.dropWhile_cons, hws, Bool.false_eq_true, if_false]
  rw [if_pos hqq, parseStringBody_escapes]
  simp only [List.dropWhile_cons, hwsc, Bool.false_eq_true, if_false]
  rw [if_pos hcc]
  rw [parseValue_renderString f v (rbraceChar :: rest)]
  simp only [List.dropWhile_cons, hwsb, Bool.false_eq_true, if_false]
  rw [if_neg (by simp [hbm]), if_pos hbb]

/-- The JSON value a rendered payload denotes. -/
def payloadJson (t s e : List Char) : Json :=
  Json.obj [("text", Json.str (String.mk t)), ("subject", Json.str (String.mk s)),
    ("emoji", Json.str (String.mk e))]

/-- Parsing a rendered three-field payload object. -/
theorem parseValue_renderPayload (f : ℕ) (t s e rest : List Char) :
    parseValue (f + 6) (renderPayloadChars t s e ++ rest) =
      some (payloadJson t s e, rest) := by
  have hwsb : isJsonWs lbraceChar = false := by decide
  have hws : isJsonWs quoteChar = false := by decide
  have hbq : (lbraceChar == quoteChar) = false := by decide
  have hbb : (lbraceChar == lbraceChar) = true := by decide
  have hqb : (quoteChar == rbraceChar) = false := by decide
  simp only [renderPayloadChars, renderPayloadInner, renderString, List.cons_append,
    List.append_assoc, List.singleton_append, List.nil_append]
  simp only [parseValue, List.dropWhile_cons, hwsb, hws, Bool.false_eq_true, if_false]
  rw [if_neg (by simp [hbq]), if_pos hbb, if_neg (by simp [hqb])]
  rw [show f + 5 = (f + 3) + 2 from by omega]
  rw [parseMembers_pair]
  rw [show f + 3 + 1 = (f + 2) + 2 from by omega]
  rw [parseMembers_pair]
  rw [show f + 2 + 1 = (f + 1) + 2 from by omega]
  rw [parseMembers_lastPair]
  rfl

/-- `json.loads` of a rendered payload yields the payload object. -/
theorem loads_renderPayload (t s e : List Char) :
    loads (String.mk (renderPayloadChars t s e)) = some (payloadJson t s e) := by
  have hbase := parseValue_renderPayload 0 t s e []
  rw [List.append_nil] at hbase
  have hlen : 0 + 6 ≤ (renderPayloadChars t s e).length + 1 := by
    simp only [renderPayloadChars, renderPayloadInner, renderString, List.length_cons,
      List.length_append]
    omega
  have hfull := parseValue_mono (0 + 6) ((renderPayloadChars t s e).length + 1) hlen _ _ hbase
  simp only [loads]
  rw [hfull]
  rfl

/-- Validating the payload object recovers the three fields. -/
theorem modelValidate_payloadJson (t s e : List Char) :
    FactoidPayload.modelValidate (payloadJson t s e) =
      some ⟨String.mk t, String.mk s, String.mk e⟩ := rfl

/-! ### Fence-regex and strip lemmas -/

theorem fenceSearch_eq_none (cs : List Char) (h : hasTriple cs = false) :
    fenceSearch cs = none := by
  induction cs with
  | nil => rfl
  | cons c rest ih =>
      simp only [hasTriple, Bool.or_eq_false_iff] at h
      rw [fenceSearch, if_neg (by simp [h.1])]
      exact ih h.2

/-- The lazy capture stops at the first closing fence: scanning a fence-free
text followed by a non-backtick character and a closing fence captures
exactly that text and the separator. -/
theorem takeUntilTriple_marker (c : Char) (hc : c ≠ backtickChar) :
    ∀ xs ys : List Char, hasTriple xs = false →
      takeUntilTriple (xs ++ (c :: backtickChar :: backtickChar :: backtickChar :: ys)) =
        some (xs ++ [c]) := by
  intro xs
  induction xs with
  | nil =>
      intro ys _
      rw [List.nil_append, takeUntilTriple, if_neg (by simp [isTripleAt, List.take, hc])]
      rw [takeUntilTriple, if_pos (by simp [isTripleAt, List.take])]
      rfl
  | cons x xs ih =>
      intro ys h
      simp only [hasTriple, Bool.or_eq_false_iff] at h
      obtain ⟨h1, h2⟩ := h
      have hcond : isTripleAt ((x :: xs) ++
          (c :: backtickChar :: backtickChar :: backtickChar :: ys)) = false := by
        cases xs with
        | nil => simp [isTripleAt, List.take, hc]
        | cons y ys2 =>
            cases ys2 with
            | nil => simp [isTripleAt, List.take, hc]
            | cons z t =>
                simp only [isTripleAt, List.take, List.cons_append, decide_eq_false_iff_not] at h1 ⊢
                exact h1
      rw [List.cons_append, takeUntilTriple, if_neg (by simp_all [List.cons_append]), ih ys h2]
      rfl

theorem dropWhile_cons_false (p : Char → Bool) (a : Char) (l : List Char)
    (ha : p a = false) : (a :: l).dropWhile p = a :: l := by
  simp [List.dropWhile_cons, ha]

/-- Stripping a text with non-whitespace first and last characters is the
identity. -/
theorem pyStripChars_sandwich (a b : Char) (mid : List Char)
    (ha : isPyWs a = false) (hb : isPyWs b = false) :
    pyStripChars (a :: (mid ++ [b])) = a :: (mid ++ [b]) := by
  simp only [pyStripChars]
  rw [dropWhile_cons_false _ _ _ ha]
  have hrev : (a :: (mid ++ [b])).reverse = b :: (mid.reverse ++ [a]) := by
    simp
  rw [hrev, dropWhile_cons_false _ _ _ hb, ← hrev, List.reverse_reverse]

/-- Stripping also removes a trailing newline. -/
theorem pyStripChars_sandwich_nl (a b : Char) (mid : List Char)
    (ha : isPyWs a = false) (hb : isPyWs b = false) :
    pyStripChars ((a :: (mid ++ [b])) ++ ['\n']) = a :: (mid ++ [b]) := by
  simp only [pyStripChars]
  have h1 : ((a :: (mid ++ [b])) ++ ['\n']).dropWhile isPyWs =
      (a :: (mid ++ [b])) ++ ['\n'] := by
    rw [List.cons_append]
    exact dropWhile_cons_false _ _ _ ha
  rw [h1]
  have hrev : ((a :: (mid ++ [b])) ++ ['\n']).reverse =
      '\n' :: (b :: (mid.reverse ++ [a])) := by
    simp
  rw [hrev]
  have hnl : isPyWs '\n' = true := by decide
  rw [List.dropWhile_cons, hnl, if_pos rfl, dropWhile_cons_false _ _ _ hb]
  have : (b :: (mid.reverse ++ [a])).reverse = a :: (mid ++ [b]) := by
    simp
  rw [this]

/-! ### Extraction of each payload encoding -/

theorem pyStripChars_renderPayload (t s e : List Char) :
    pyStripChars (renderPayloadChars t s e) = renderPayloadChars t s e := by
  simp only [renderPayloadChars]
  exact pyStripChars_sandwich _ _ _ (by decide) (by decide)

theorem extractFields_renderPayload (p : FactoidPayload)
    (h : hasTriple (renderPayloadChars p.text.data p.subject.data p.emoji.data) = false) :
    extractFactoidFields
        (String.mk (renderPayloadChars p.text.data p.subject.data p.emoji.data)) =
      some (pyStrip p.text, pyStrip p.subject, pyStrip p.emoji) := by
  simp only [extractFactoidFields, normaliseContent]
  rw [fenceSearch_eq_none _ h]
  simp only [pyStrip]
  rw [pyStripChars_renderPayload, loads_renderPayload]
  simp only [modelValidate_payloadJson, string_mk_data]

theorem extract_plainMessage (p : FactoidPayload)
    (h : hasTriple (renderPayloadChars p.text.data p.subject.data p.emoji.data) = false) :
    generateFactoidCompletionExtract (plainMessage p) =
      some (pyStrip p.text, pyStrip p.subject, pyStrip p.emoji) := by
  simp only [generateFactoidCompletionExtract, plainMessage, extractFactoidFromToolCall]
  exact extractFields_renderPayload p h

/-- The fence regex on a ```json fenced rendered payload captures the payload
text (with its trailing newline). -/
theorem fenceSearch_fencedRender (t s e : List Char)
    (h : hasTriple (renderPayloadChars t s e) = false) :
    fenceSearch (backtickChar :: backtickChar :: backtickChar :: 'j' :: 's' :: 'o' :: 'n' ::
        '\n' :: (renderPayloadChars t s e ++
          ('\n' :: backtickChar :: backtickChar :: [backtickChar]))) =
      some (renderPayloadChars t s e ++ ['\n']) := by
  rw [fenceSearch, if_pos (by simp [isTripleAt, List.take])]
  have hdw : List.dropWhile isPyWs ('\n' :: (renderPayloadChars t s e ++
      ('\n' :: backtickChar :: backtickChar :: [backtickChar]))) =
      renderPayloadChars t s e ++
        ('\n' :: backtickChar :: backtickChar :: [backtickChar]) := by
    rw [List.dropWhile_cons]
    rw [if_pos (show isPyWs '\n' = true from by decide)]
    simp only [renderPayloadChars, List.cons_append]
    exact dropWhile_cons_false _ _ _ (by decide)
  have h2 : takeUntilTriple (List.dropWhile isPyWs ('\n' :: (renderPayloadChars t s e ++
      ('\n' :: backtickChar :: backtickChar :: [backtickChar])))) =
      some (renderPayloadChars t s e ++ ['\n']) := by
    rw [hdw]
    exact takeUntilTriple_marker '\n' (by decide) _ [] h
  exact h2

theorem extract_fencedMessage (p : FactoidPayload)
    (h : hasTriple (renderPayloadChars p.text.data p.subject.data p.emoji.data) = false) :
    generateFactoidCompletionExtract (fencedMessage p) =
      some (pyStrip p.text, pyStrip p.subject, pyStrip p.emoji) := by
  simp only [generateFactoidCompletionExtract, fencedMessage, extractFactoidFromToolCall]
  simp only [extractFactoidFields, normaliseContent]
  rw [fenceSearch_fencedRender p.text.data p.subject.data p.emoji.data h]
  simp only [pyStrip]
  have hstrip : pyStripChars
      (renderPayloadChars p.text.data p.subject.data p.emoji.data ++ ['\n']) =
      renderPayloadChars p.text.data p.subject.data p.emoji.data := by
    simp only [renderPayloadChars]
    exact pyStripChars_sandwich_nl _ _ _ (by decide) (by decide)
  rw [hstrip, loads_renderPayload]
  simp only [modelValidate_payloadJson, string_mk_data]

theorem extract_toolStructuredMessage (p : FactoidPayload) :
    generateFactoidCompletionExtract (toolStructuredMessage p) =
      some (pyStrip p.text, pyStrip p.subject, pyStrip p.emoji) := rfl

theorem extract_toolEncodedMessage (p : FactoidPayload) :
    generateFactoidCompletionExtract (toolEncodedMessage p) =
      some (pyStrip p.text, pyStrip p.subject, pyStrip p.emoji) := by
  simp only [generateFactoidCompletionExtract, toolEncodedMessage,
    extractFactoidFromToolCall, resolveToolCallArgs]
  rw [if_pos (by decide), loads_renderPayload]
  rfl

/-- C3 (amended): for every three-field payload whose canonical JSON encoding
contains no triple-backtick run, extraction yields the identical
(whitespace-stripped) payload whether the response carries it as plain JSON
text, as a ```json fenced block, or as `make_factoid` arguments given
structured or JSON-encoded.  (The backtick proviso is forced by
`extraction_encoding_agreement_cex`: the fence regex of `_normalise_content`
misparses encodings containing ``` runs.) -/
theorem extraction_encoding_agreement :
    ∀ p : FactoidPayload,
      hasTriple (renderPayloadChars p.text.data p.subject.data p.emoji.data) = false →
      generateFactoidCompletionExtract (plainMessage p) =
          some (pyStrip p.text, pyStrip p.subject, pyStrip p.emoji) ∧
      generateFactoidCompletionExtract (fencedMessage p) =
          some (pyStrip p.text, pyStrip p.subject, pyStrip p.emoji) ∧
      generateFactoidCompletionExtract (toolStructuredMessage p) =
          some (pyStrip p.text, pyStrip p.subject, pyStrip p.emoji) ∧
      generateFactoidCompletionExtract (toolEncodedMessage p) =
          some (pyStrip p.text, pyStrip p.subject, pyStrip p.emoji) :=
  fun p h => ⟨extract_plainMessage p h, extract_fencedMessage p h,
    extract_toolStructuredMessage p, extract_toolEncodedMessage p⟩

/-- Witness for `extraction_encoding_agreement` at a concrete payload. -/
theorem extraction_encoding_agreement_witness :
    hasTriple (renderPayloadChars ("Fact" : String).data ("Science" : String).data
        ("X" : String).data) = false ∧
    generateFactoidCompletionExtract (plainMessage ⟨"Fact", "Science", "X"⟩) =
      some (pyStrip ("Fact"), pyStrip ("Science"), pyStrip ("X")) ∧
    generateFactoidCompletionExtract (fencedMessage ⟨"Fact", "Science", "X"⟩) =
      some (pyStrip ("Fact"), pyStrip ("Science"), pyStrip ("X")) ∧
    generateFactoidCompletionExtract (toolStructuredMessage ⟨"Fact", "Science", "X"⟩) =
      some (pyStrip ("Fact"), pyStrip ("Science"), pyStrip ("X")) ∧
    generateFactoidCompletionExtract (toolEncodedMessage ⟨"Fact", "Science", "X"⟩) =
      some (pyStrip ("Fact"), pyStrip ("Science"), pyStrip ("X")) :=
  ⟨by decide, extraction_encoding_agreement ⟨"Fact", "Science", "X"⟩ (by decide)⟩

/-- C3, as stated, is false: a payload whose text contains two triple-backtick
runs is valid under the validation rules, extracts from a `make_factoid`
tool invocation, but fails to extract from its plain-JSON text encoding —
the fence regex captures the span between the in-string backtick runs. -/
theorem extraction_encoding_agreement_cex :
    (pyStrip ("a``` b``` c") = "a``` b``` c" ∧ ("a``` b``` c" : String) ≠ "" ∧
      ("s" : String) ≠ "" ∧ ("s" : String).length ≤ 255 ∧
      ("e" : String) ≠ "" ∧ ("e" : String).length ≤ 16) ∧
    generateFactoidCompletionExtract (toolStructuredMessage ⟨"a``` b``` c", "s", "e"⟩) =
      some ("a``` b``` c", "s", "e") ∧
    generateFactoidCompletionExtract (plainMessage ⟨"a``` b``` c", "s", "e"⟩) = none := by
  decide

set_option maxRecDepth 16000 in
/-- C4, as stated, is false: the pydantic model has no emptiness or length
constraints, so a response whose fields are empty or overlong still extracts
to a payload. -/
theorem extractor_validation_cex :
    generateFactoidCompletionExtract (plainMessage ⟨"", String.mk (List.replicate 256 'a'),
        String.mk (List.replicate 17 'x')⟩) =
      some ("", String.mk (List.replicate 256 'a'), String.mk (List.replicate 17 'x')) ∧
    (String.mk (List.replicate 256 'a')).length = 256 ∧
    (String.mk (List.replicate 17 'x')).length = 17 := by
  decide

/-- C4 (amended): the extractor validates exactly that the normalised content
parses as a JSON object whose `text`, `subject` and `emoji` members are
strings, returning their stripped values — with no emptiness or length
checks; the 255/16 length caps are enforced only by truncation when the
factoid row is persisted. -/
theorem extractor_presence_validation :
    (∀ content t s e, extractFactoidFields content = some (t, s, e) →
      ∃ members t0 s0 e0,
        loads (normaliseContent content) = some (Json.obj members) ∧
        objLookup members ("text") = some (Json.str t0) ∧
        objLookup members ("subject") = some (Json.str s0) ∧
        objLookup members ("emoji") = some (Json.str e0) ∧
        t = pyStrip t0 ∧ s = pyStrip s0 ∧ e = pyStrip e0) ∧
    (∀ content members t0 s0 e0,
      loads (normaliseContent content) = some (Json.obj members) →
      objLookup members ("text") = some (Json.str t0) →
      objLookup members ("subject") = some (Json.str s0) →
      objLookup members ("emoji") = some (Json.str e0) →
      extractFactoidFields content = some (pyStrip t0, pyStrip s0, pyStrip e0)) ∧
    (∀ r : GenerationResult,
      (persistFactoid r).subject.length ≤ 255 ∧ (persistFactoid r).emoji.length ≤ 16) := by
  refine ⟨?_, ?_, ?_⟩
  · intro content t s e h
    simp only [extractFactoidFields] at h
    cases hl : loads (normaliseContent content) with
    | none =>
        simp only [hl] at h
        exact Option.noConfusion h
    | some data =>
        simp only [hl] at h
        cases hv : FactoidPayload.modelValidate data with
        | none =>
            simp only [hv] at h
            exact Option.noConfusion h
        | some q =>
            simp only [hv, Option.some.injEq, Prod.mk.injEq] at h
            obtain ⟨ht, hs, he⟩ := h
            cases data with
            | obj members =>
                simp only [FactoidPayload.modelValidate] at hv
                split at hv
                · rename_i t0 s0 e0 h1 h2 h3
                  injection hv with hq
                  refine ⟨members, t0, s0, e0, rfl, h1, h2, h3, ?_, ?_, ?_⟩
                  · rw [← ht, ← hq]
                  · rw [← hs, ← hq]
                  · rw [← he, ← hq]
                · exact Option.noConfusion hv
            | null => simp [FactoidPayload.modelValidate] at hv
            | bool b => simp [FactoidPayload.modelValidate] at hv
            | num q2 => simp [FactoidPayload.modelValidate] at hv
            | str s2 => simp [FactoidPayload.modelValidate] at hv
            | arr l => simp [FactoidPayload.modelValidate] at hv
  · intro content members t0 s0 e0 hl h1 h2 h3
    simp only [extractFactoidFields, hl, FactoidPayload.modelValidate, h1, h2, h3]
  · intro r
    constructor
    · have : (persistFactoid r).subject.length = (r.subject.data.take 255).length := rfl
      rw [this, List.length_take]
      omega
    · have : (persistFactoid r).emoji.length = (r.emoji.data.take 16).length := rfl
      rw [this, List.length_take]
      omega

/-- Witness for `extractor_presence_validation` at a concrete content. -/
theorem extractor_presence_validation_witness :
    extractFactoidFields ("\x7b\"text\": \"Fact\", \"subject\": \"Sci\", \"emoji\": \"X\"\x7d") =
      some ("Fact", "Sci", "X") ∧
    (∃ members t0 s0 e0,
      loads (normaliseContent
          ("\x7b\"text\": \"Fact\", \"subject\": \"Sci\", \"emoji\": \"X\"\x7d")) =
        some (Json.obj members) ∧
      objLookup members ("text") = some (Json.str t0) ∧
      objLookup members ("subject") = some (Json.str s0) ∧
      objLookup members ("emoji") = some (Json.str e0) ∧
      "Fact" = pyStrip t0 ∧ "Sci" = pyStrip s0 ∧ "X" = pyStrip e0) ∧
    (persistFactoid ⟨"t", "s", "e"⟩).subject.length ≤ 255 := by
  refine ⟨by decide, ?_, ?_⟩
  · exact extractor_presence_validation.1
      ("\x7b\"text\": \"Fact\", \"subject\": \"Sci\", \"emoji\": \"X\"\x7d")
      ("Fact") ("Sci") ("X") (by decide)
  · exact (extractor_presence_validation.2.2 ⟨"t", "s", "e"⟩).1

/-- C5: the tool path is tried first; any of its failures (no matching call,
undecodable or malformed arguments, schema-validation failure) falls through
to the free-text path, whose own decode or validation failure is terminal.
In particular a `make_factoid` call missing the emoji field whose raw
content is not valid JSON yields the terminal invalid-structure failure. -/
theorem tool_path_fallthrough :
    (∀ m : Message,
      (∀ r, extractFactoidFromToolCall m.tool_calls = some r →
        generateFactoidCompletionExtract m = some r) ∧
      (extractFactoidFromToolCall m.tool_calls = none →
        generateFactoidCompletionExtract m = extractFactoidFields m.content) ∧
      (extractFactoidFromToolCall m.tool_calls = none →
        extractFactoidFields m.content = none →
        generateFactoidCompletionExtract m = none)) ∧
    generateFactoidCompletionExtract
        ⟨"not json", [⟨some ("make_factoid"),
          .structured [("text", Json.str ("Fact")), ("subject", Json.str ("Science"))]⟩]⟩ =
      none := by
  constructor
  · intro m
    refine ⟨?_, ?_, ?_⟩
    · intro r hr
      simp [generateFactoidCompletionExtract, hr]
    · intro hn
      simp [generateFactoidCompletionExtract, hn]
    · intro hn hf
      simp [generateFactoidCompletionExtract, hn, hf]
  · decide

/-- Witness for `tool_path_fallthrough` at a concrete message. -/
theorem tool_path_fallthrough_witness :
    extractFactoidFromToolCall ([⟨some ("web_search"), .missing⟩]) = none ∧
    generateFactoidCompletionExtract ⟨"oops", [⟨some ("web_search"), .missing⟩]⟩ =
      extractFactoidFields ("oops") ∧
    generateFactoidCompletionExtract ⟨"oops", [⟨some ("web_search"), .missing⟩]⟩ = none := by
  refine ⟨by decide, ?_, ?_⟩
  · exact ((tool_path_fallthrough.1 ⟨"oops", [⟨some ("web_search"), .missing⟩]⟩).2.1
      (by decide))
  · exact ((tool_path_fallthrough.1 ⟨"oops", [⟨some ("web_search"), .missing⟩]⟩).2.2
      (by decide) (by decide))

/-! ### Model resolution -/

theorem choice_get_mem (l : List String) (h : l ≠ []) (pick : ℕ) :
    ∃ x, l.get? (pick % l.length) = some x ∧ x ∈ l := by
  have hlen : 0 < l.length := List.length_pos.mpr h
  have hlt : pick % l.length < l.length := Nat.mod_lt _ hlen
  refine ⟨l.get ⟨pick % l.length, hlt⟩, ?_, List.get_mem _ _ _⟩
  exact List.get?_eq_get hlt

/-- C6, as stated, is false: the generation resolver performs no capability
filtering — with a catalog whose only model does not support tools, it
returns that model instead of the static default the claim requires. -/
theorem model_resolution_cex :
    (CatalogModel.mk ("foo/bar") false).supports_tools = false ∧
    resolveModelKey none (some [⟨"foo/bar", false⟩]) 0 = "foo/bar" ∧
    ("foo/bar" : String) ≠ DEFAULT_FACTOID_MODEL := by
  decide

/-- C6 (amended): a non-empty preferred key is returned unchanged by both
resolvers independently of the catalog (no fetch can influence the result);
with no preference both return their static defaults when the catalog fetch
fails and also when the catalog yields no candidates (empty list); the
chat resolver chooses among the tool-capable ids, preferring the non-free
well-known-provider subset when nonempty; the generation resolver chooses
among all catalog ids with no capability filtering. -/
theorem model_resolution_behaviour :
    (∀ p : String, p.isEmpty = false → ∀ catalog pick,
      resolveModelKey (some p) catalog pick = p ∧
      resolveChatModelKey (some p) catalog pick = p) ∧
    (∀ pick, resolveModelKey none none pick = DEFAULT_FACTOID_MODEL ∧
      resolveChatModelKey none none pick = FACTOID_AGENT_DEFAULT_MODEL) ∧
    (∀ pick, resolveModelKey none (some []) pick = DEFAULT_FACTOID_MODEL ∧
      resolveChatModelKey none (some []) pick = FACTOID_AGENT_DEFAULT_MODEL) ∧
    (∀ (models : List CatalogModel) pick, models ≠ [] →
      resolveModelKey none (some models) pick ∈ models.map (fun m => m.id)) ∧
    (∀ (models : List CatalogModel) pick,
      ((models.filter (fun m => m.supports_tools)).map (fun m => m.id)).filter
          isPreferredModelId ≠ [] →
      resolveChatModelKey none (some models) pick ∈
        ((models.filter (fun m => m.supports_tools)).map (fun m => m.id)).filter
          isPreferredModelId) ∧
    (∀ (models : List CatalogModel) pick,
      ((models.filter (fun m => m.supports_tools)).map (fun m => m.id)).filter
          isPreferredModelId = [] →
      (models.filter (fun m => m.supports_tools)).map (fun m => m.id) ≠ [] →
      resolveChatModelKey none (some models) pick ∈
        (models.filter (fun m => m.supports_tools)).map (fun m => m.id)) ∧
    (∀ (models : List CatalogModel) pick,
      (models.filter (fun m => m.supports_tools)).map (fun m => m.id) = [] →
      resolveChatModelKey none (some models) pick = FACTOID_AGENT_DEFAULT_MODEL) := by
  refine ⟨?_, ?_, ?_, ?_, ?_, ?_, ?_⟩
  · intro p hne catalog pick
    constructor
    · simp [resolveModelKey, hne]
    · simp [resolveChatModelKey, hne]
  · intro pick
    constructor
    · rfl
    · rfl
  · intro pick
    constructor
    · rfl
    · rfl
  · intro models pick h
    have hcand : models.map (fun m => m.id) ≠ [] := by
      simpa using h
    obtain ⟨x, hx, hmem⟩ := choice_get_mem (models.map (fun m => m.id)) hcand pick
    have hie : (models.map (fun m => m.id)).isEmpty = false := by
      cases hi : (models.map (fun m => m.id)).isEmpty
      · rfl
      · exact absurd (List.isEmpty_iff.mp hi) hcand
    simp only [resolveModelKey, randomOrDefaultModel, randomOpenrouterModel, hie,
      Bool.false_eq_true, if_false, hx]
    exact hmem
  · intro models pick h
    have hie : (((models.filter (fun m => m.supports_tools)).map (fun m => m.id)).filter
        isPreferredModelId).isEmpty = false := by
      cases hi : (((models.filter (fun m => m.supports_tools)).map (fun m => m.id)).filter
          isPreferredModelId).isEmpty
      · rfl
      · exact absurd (List.isEmpty_iff.mp hi) h
    obtain ⟨x, hx, hmem⟩ := choice_get_mem _ h pick
    simp only [resolveChatModelKey, chatRandomOrDefault, randomToolSupportingModel, hie,
      Bool.false_eq_true, if_false, hx]
    exact hmem
  · intro models pick hpref htool
    have hprefE : (((models.filter (fun m => m.supports_tools)).map (fun m => m.id)).filter
        isPreferredModelId).isEmpty = true := by
      rw [hpref]; rfl
    have htoolE : ((models.filter (fun m => m.supports_tools)).map
        (fun m => m.id)).isEmpty = false := by
      cases hi : ((models.filter (fun m => m.supports_tools)).map (fun m => m.id)).isEmpty
      · rfl
      · exact absurd (List.isEmpty_iff.mp hi) htool
    obtain ⟨x, hx, hmem⟩ := choice_get_mem _ htool pick
    simp only [resolveChatModelKey, chatRandomOrDefault, randomToolSupportingModel, hprefE,
      if_true, htoolE, Bool.false_eq_true, if_false, hx]
    exact hmem
  · intro models pick htool
    have hpref : (((models.filter (fun m => m.supports_tools)).map (fun m => m.id)).filter
        isPreferredModelId) = [] := by
      rw [htool]; rfl
    have hprefE : (((models.filter (fun m => m.supports_tools)).map (fun m => m.id)).filter
        isPreferredModelId).isEmpty = true := by
      rw [hpref]; rfl
    have htoolE : ((models.filter (fun m => m.supports_tools)).map
        (fun m => m.id)).isEmpty = true := by
      rw [htool]; rfl
    simp only [resolveChatModelKey, chatRandomOrDefault, randomToolSupportingModel, hprefE,
      if_true, htoolE]

/-- Witness for `model_resolution_behaviour` at concrete inputs. -/
theorem model_resolution_behaviour_witness :
    resolveModelKey (some ("meta/llama")) (some [⟨"x/y", true⟩]) 3 = "meta/llama" ∧
    resolveChatModelKey none none 0 = FACTOID_AGENT_DEFAULT_MODEL ∧
    resolveModelKey none (some []) 5 = DEFAULT_FACTOID_MODEL ∧
    resolveModelKey none (some [⟨"foo/bar", false⟩]) 0 ∈
      ([⟨"foo/bar", false⟩] : List CatalogModel).map (fun m => m.id) ∧
    resolveChatModelKey none (some [⟨"openai/gpt-4o", true⟩, ⟨"z/q:free", true⟩]) 1 ∈
      ((([⟨"openai/gpt-4o", true⟩, ⟨"z/q:free", true⟩] : List CatalogModel).filter
        (fun m => m.supports_tools)).map (fun m => m.id)).filter isPreferredModelId := by
  refine ⟨?_, ?_, ?_, ?_, ?_⟩
  · exact (model_resolution_behaviour.1 ("meta/llama") rfl
      (some [⟨"x/y", true⟩]) 3).1
  · exact (model_resolution_behaviour.2.1 0).2
  · exact (model_resolution_behaviour.2.2.1 5).1
  · exact model_resolution_behaviour.2.2.2.1 [⟨"foo/bar", false⟩] 0 (by decide)
  · exact model_resolution_behaviour.2.2.2.2.1
      [⟨"openai/gpt-4o", true⟩, ⟨"z/q:free", true⟩] 1 (by decide)

/-! ### Orchestrator persistence and cost policy -/

/-- C7: outcomes of `generate_factoid`.  `RateLimited` and `BudgetExceeded`
are surfaced with no request row created and the guard untouched; an
invocation/extraction failure after the checks creates exactly one request
row marked failed with the error detail stored, persists no factoid and
leaves the guard (budget usage) unchanged; only on successful extraction is
the factoid persisted, the row marked succeeded, and the actual cost
recorded via `CostGuard.record`. -/
theorem orchestrator_persistence_policy :
    ∀ (guard : CostGuard) (profile model : String),
      (∀ retry completion apiKey,
        generateFactoid (some retry) guard profile apiKey model completion =
          (.rateLimited retry, ⟨[], [], guard⟩)) ∧
      (∀ completion apiKey, (guard.evaluate profile (1/10)).allowed = false →
        generateFactoid none guard profile apiKey model completion =
          (.budgetExceeded (guard.evaluate profile (1/10)).remaining_budget,
            ⟨[], [], guard⟩)) ∧
      (∀ msg, (guard.evaluate profile (1/10)).allowed = true →
        generateFactoid none guard profile true model (.error msg) =
          (.generationFailed ("Failed to generate factoid"),
            ⟨[⟨model, .failed, some msg, none⟩], [], guard⟩)) ∧
      (∀ result, (guard.evaluate profile (1/10)).allowed = true →
        generateFactoid none guard profile true model (.ok result) =
          (.ok (persistFactoid result),
            ⟨[⟨model, .succeeded, none, some (1/10)⟩], [persistFactoid result],
              CostGuard.record guard profile (1/10)⟩)) := by
  intro guard profile model
  refine ⟨?_, ?_, ?_, ?_⟩
  · intro retry completion apiKey
    rfl
  · intro completion apiKey h
    simp only [generateFactoid]
    rw [h]
    rfl
  · intro msg h
    simp only [generateFactoid]
    rw [h]
    rfl
  · intro result h
    simp only [generateFactoid]
    rw [h]
    rfl

/-- Witness for `orchestrator_persistence_policy` at a concrete guard. -/
theorem orchestrator_persistence_policy_witness :
    generateFactoid none ⟨[("anonymous", 1)], []⟩ ("anonymous") true ("m")
        (.error ("boom")) =
      (.generationFailed ("Failed to generate factoid"),
        ⟨[⟨"m", .failed, some ("boom"), none⟩], [], ⟨[("anonymous", 1)], []⟩⟩) ∧
    generateFactoid (some 7) ⟨[("anonymous", 1)], []⟩ ("anonymous") true ("m")
        (.error ("boom")) =
      (.rateLimited 7, ⟨[], [], ⟨[("anonymous", 1)], []⟩⟩) := by
  constructor
  · exact (orchestrator_persistence_policy ⟨[("anonymous", 1)], []⟩ ("anonymous")
      ("m")).2.2.1 ("boom")
      (by norm_num [CostGuard.evaluate, CostGuard.getBudget, dictGet])
  · exact (orchestrator_persistence_policy ⟨[("anonymous", 1)], []⟩ ("anonymous")
      ("m")).1 7 (.error ("boom")) true

/-! ### Invocation retry/fallback policy -/

/-- C8, as stated, is false for the generation orchestrator: an invocation
failure whose message clearly indicates throttling is still terminal —
`generate_factoid` performs no second attempt against any fallback model. -/
theorem invocation_retry_policy_cex :
    isTransientError ("Rate limit exceeded: 429") = true ∧
    generateFactoid none ⟨[], []⟩ ("anonymous") true ("some/model")
        (.error ("Rate limit exceeded: 429")) =
      (.generationFailed ("Failed to generate factoid"),
        ⟨[⟨"some/model", .failed, some ("Rate limit exceeded: 429"), none⟩], [],
          ⟨[], []⟩⟩) := by
  decide

/-- C8 (amended): only the chat agent retries: on a first error whose
lowercased message contains a throttling keyword it makes exactly one more
attempt against the fixed fallback model (when distinct from the resolved
one), propagating the original error if the fallback also fails; any other
error, or a first success, involves a single attempt.  The single-shot
generation orchestrator performs no retry at all: any invocation error is
terminal after one attempt. -/
theorem invocation_retry_policy :
    (∀ resolved e fallbackAttempt, isTransientError e = true → FALLBACK_MODEL ≠ resolved →
      runFactoidAgentRetry resolved (.error e) fallbackAttempt =
        ((match fallbackAttempt with
          | .ok a => .ok a
          | .error _ => .error e), [resolved, FALLBACK_MODEL])) ∧
    (∀ resolved e fallbackAttempt, isTransientError e = false →
      runFactoidAgentRetry resolved (.error e) fallbackAttempt = (.error e, [resolved])) ∧
    (∀ resolved a fallbackAttempt,
      runFactoidAgentRetry resolved (.ok a) fallbackAttempt = (.ok a, [resolved])) ∧
    (∀ e fallbackAttempt, isTransientError e = true →
      runFactoidAgentRetry FALLBACK_MODEL (.error e) fallbackAttempt =
        (.error e, [FALLBACK_MODEL])) ∧
    (∀ guard profile model msg, (CostGuard.evaluate guard profile (1/10)).allowed = true →
      generateFactoid none guard profile true model (.error msg) =
        (.generationFailed ("Failed to generate factoid"),
          ⟨[⟨model, .failed, some msg, none⟩], [], guard⟩)) := by
  refine ⟨?_, ?_, ?_, ?_, ?_⟩
  · intro resolved e fallbackAttempt ht hne
    simp only [runFactoidAgentRetry]
    rw [ht, if_pos rfl, if_pos hne]
    cases fallbackAttempt <;> rfl
  · intro resolved e fallbackAttempt ht
    simp only [runFactoidAgentRetry]
    rw [ht, if_neg (by simp)]
  · intro resolved a fallbackAttempt
    rfl
  · intro e fallbackAttempt ht
    simp only [runFactoidAgentRetry]
    rw [ht, if_pos rfl, if_neg (by simp)]
  · intro guard profile model msg h
    simp only [generateFactoid]
    rw [h]
    rfl

/-- Witness for `invocation_retry_policy` at concrete attempts. -/
theorem invocation_retry_policy_witness :
    runFactoidAgentRetry ("anthropic/claude-3") (.error ("HTTP 429 Too Many Requests"))
        (.ok 5) =
      (.ok 5, ["anthropic/claude-3", FALLBACK_MODEL]) ∧
    runFactoidAgentRetry ("anthropic/claude-3") (.error ("invalid api key"))
        (.ok 5) =
      (.error ("invalid api key"), ["anthropic/claude-3"]) := by
  constructor
  · exact (invocation_retry_policy.1 ("anthropic/claude-3")
      ("HTTP 429 Too Many Requests") (.ok 5) (by decide) (by decide))
  · exact (invocation_retry_policy.2.1 ("anthropic/claude-3")
      ("invalid api key") (.ok 5) (by decide))

/-! ### Conversational-agent iteration ceiling -/

/-- C9: the claim matches the code's evident intent (the literal 6 in the
config) but not its behaviour: `FactoidAgent.run` places `recursion_limit`
under `configurable`, which LangGraph never consults for the step bound, so
the effective ceiling is the default 25.  A model that requests tools on
every turn is invoked 13 times — more than 6 — before the loop fails with
the (still hard, still distinct) recursion error; under the intended
ceiling of 6 it would have been invoked only 3 times. -/
theorem iteration_ceiling_misconfigured :
    agentInvokeConfig.recursion_limit = none ∧
    agentInvokeConfig.configurable = [("recursion_limit", 6)] ∧
    effectiveRecursionLimit agentInvokeConfig = 25 ∧
    FactoidAgent.run (fun _ => true) = (.error (), 13) ∧
    ¬ 13 ≤ 6 ∧
    runAgentGraph (fun _ => true) 6 0 false = (.error (), 3) ∧
    FactoidAgent.run (fun n => decide (n < 2)) = (.ok 3, 3) :=
  ⟨rfl, rfl, rfl, rfl, by omega, rfl, rfl⟩

end Factoids
